import Mathlib

/-!
Verification of the binary archive handling in `claude-depester`.

The development shallowly embeds the byte-level operations of
`src/lib/bun-binary.js` (parsing and rebuilding of the Bun single-file
archive, fixed-capacity repacking) and of `src/unnamed/part_000`
(length-preserving array patching).  Node `Buffer`s are modelled as
`List Nat` of byte values; little-endian reads/writes are explicit
arithmetic; fallible operations return `Except`/`Option`.
-/

namespace Depester

/-- A byte buffer: the model of a Node `Buffer`. -/
abbrev Buf := List Nat

instance {ε α : Type} [DecidableEq ε] [DecidableEq α] : DecidableEq (Except ε α) := fun a b =>
  match a, b with
  | .error e, .error f =>
    if h : e = f then .isTrue (by rw [h]) else .isFalse (by intro hc; cases hc; exact h rfl)
  | .ok x, .ok y =>
    if h : x = y then .isTrue (by rw [h]) else .isFalse (by intro hc; cases hc; exact h rfl)
  | .error _, .ok _ => .isFalse (by intro hc; cases hc)
  | .ok _, .error _ => .isFalse (by intro hc; cases hc)

/-- Model of `buffer.subarray(start, stop)` with Node's clamping semantics:
the result is the bytes in `[start, stop)` intersected with the buffer. -/
def subarr (b : Buf) (start stop : Nat) : Buf :=
  (b.drop start).take (stop - start)

/-- Model of a one-byte read (`buffer[i]` / `readUInt8`); an out-of-range
read yields a value that matches no byte comparison, modelled as 0 where
the code only compares against nonzero bytes. -/
def readU8 (b : Buf) (i : Nat) : Nat := b.getD i 0

/-- Model of `buffer.readUInt32LE(i)`. -/
def readU32 (b : Buf) (i : Nat) : Nat :=
  readU8 b i + 256 * readU8 b (i + 1) + 256 ^ 2 * readU8 b (i + 2) + 256 ^ 3 * readU8 b (i + 3)

/-- Model of `buffer.readBigUInt64LE(i)` (the value as a natural number). -/
def readU64 (b : Buf) (i : Nat) : Nat :=
  readU32 b i + 2 ^ 32 * readU32 b (i + 4)

/-- The four bytes `writeUInt32LE` stores for value `v` (little endian,
reduced mod 2^32). -/
def u32le (v : Nat) : Buf :=
  [v % 256, v / 256 % 256, v / 256 ^ 2 % 256, v / 256 ^ 3 % 256]

/-- The eight bytes `writeBigUInt64LE` stores for value `v`. -/
def u64le (v : Nat) : Buf := u32le v ++ u32le (v / 2 ^ 32)

/-- Overwrite `b` with `data` starting at `off`, truncating at the end of
`b`: the semantics of Node `source.copy(target, off)` and of in-place LE
writes (the target buffer never grows). -/
def writeBytes (b : Buf) (off : Nat) (data : Buf) : Buf :=
  b.take off ++ data.take (b.length - off) ++ b.drop (off + data.length)

/-- Sequential writes of byte chunks at consecutive offsets, modelling
write loops that advance a cursor by the size of each chunk. -/
def writeSeq (b : Buf) (off : Nat) : List Buf → Buf
  | [] => b
  | d :: ds => writeSeq (writeBytes b off d) (off + d.length) ds

/-! ### Constants of `src/lib/bun-binary.js` -/

/-- `BUN_TRAILER = Buffer.from('\n---- Bun! ----\n')`, 16 bytes. -/
def BUN_TRAILER : Buf := [10, 45, 45, 45, 45, 32, 66, 117, 110, 33, 32, 45, 45, 45, 45, 10]

def SIZEOF_OFFSETS : Nat := 32

def SIZEOF_STRING_POINTER : Nat := 8

/-- Old module record layout: 4 StringPointers + 4 u8 = 36 bytes. -/
def SIZEOF_MODULE_OLD : Nat := 4 * SIZEOF_STRING_POINTER + 4

/-- New module record layout: 6 StringPointers + 4 u8 = 52 bytes. -/
def SIZEOF_MODULE_NEW : Nat := 6 * SIZEOF_STRING_POINTER + 4

/-! ### Parsing (`parseStringPointer` … `parseBunDataBlob`) -/

structure StringPointer where
  offset : Nat
  length : Nat
deriving DecidableEq

instance : Inhabited StringPointer := ⟨⟨0, 0⟩⟩

/-- `parseStringPointer(buffer, offset)`: two u32 LE reads. -/
def parseStringPointer (b : Buf) (off : Nat) : StringPointer :=
  ⟨readU32 b off, readU32 b (off + 4)⟩

/-- `getStringPointerContent(buffer, sp)`: `buffer.subarray(sp.offset, sp.offset + sp.length)`. -/
def getStringPointerContent (b : Buf) (sp : StringPointer) : Buf :=
  subarr b sp.offset (sp.offset + sp.length)

structure BunOffsets where
  byteCount : Nat
  modulesPtr : StringPointer
  entryPointId : Nat
  compileExecArgvPtr : StringPointer
  flags : Nat
deriving DecidableEq

/-- `parseOffsets(buffer)`: the fixed 32-byte offsets header. -/
def parseOffsets (b : Buf) : BunOffsets :=
  { byteCount := readU64 b 0
    modulesPtr := parseStringPointer b 8
    entryPointId := readU32 b 16
    compileExecArgvPtr := parseStringPointer b 20
    flags := readU32 b 28 }

/-- `detectModuleStructSize(modulesListLength)` (bun-binary.js lines 64-72):
if exactly one of the two record sizes divides the table length, use it;
otherwise ("ambiguous or neither") prefer the new 52-byte format. -/
def detectModuleStructSize (modulesListLength : Nat) : Nat :=
  let fitsNew := modulesListLength % SIZEOF_MODULE_NEW = 0
  let fitsOld := modulesListLength % SIZEOF_MODULE_OLD = 0
  if fitsNew ∧ ¬ fitsOld then SIZEOF_MODULE_NEW
  else if fitsOld ∧ ¬ fitsNew then SIZEOF_MODULE_OLD
  else SIZEOF_MODULE_NEW

structure CompiledModule where
  name : StringPointer
  contents : StringPointer
  sourcemap : StringPointer
  bytecode : StringPointer
  moduleInfo : StringPointer
  bytecodeOriginPath : StringPointer
  encoding : Nat
  loader : Nat
  moduleFormat : Nat
  side : Nat
deriving DecidableEq

instance : Inhabited CompiledModule :=
  ⟨⟨default, default, default, default, default, default, 0, 0, 0, 0⟩⟩

/-- `parseCompiledModule(buffer, offset, moduleStructSize)`: four common
StringPointers, two more for the new format (`{0,0}` placeholders in the
old format), then four flag bytes. -/
def parseCompiledModule (b : Buf) (off ss : Nat) : CompiledModule :=
  if ss = SIZEOF_MODULE_NEW then
    { name := parseStringPointer b off
      contents := parseStringPointer b (off + 8)
      sourcemap := parseStringPointer b (off + 16)
      bytecode := parseStringPointer b (off + 24)
      moduleInfo := parseStringPointer b (off + 32)
      bytecodeOriginPath := parseStringPointer b (off + 40)
      encoding := readU8 b (off + 48), loader := readU8 b (off + 49)
      moduleFormat := readU8 b (off + 50), side := readU8 b (off + 51) }
  else
    { name := parseStringPointer b off
      contents := parseStringPointer b (off + 8)
      sourcemap := parseStringPointer b (off + 16)
      bytecode := parseStringPointer b (off + 24)
      moduleInfo := ⟨0, 0⟩, bytecodeOriginPath := ⟨0, 0⟩
      encoding := readU8 b (off + 32), loader := readU8 b (off + 33)
      moduleFormat := readU8 b (off + 34), side := readU8 b (off + 35) }

/-- The sequence of records visited by `mapModules`: record `i` is parsed
at offset `i * moduleStructSize` of the module-table bytes, for
`i < Math.floor(tableLength / moduleStructSize)`. -/
def decodeModules (bunData : Buf) (off : BunOffsets) (ss : Nat) : List CompiledModule :=
  let mlb := getStringPointerContent bunData off.modulesPtr
  (List.range (mlb.length / ss)).map (fun i => parseCompiledModule mlb (i * ss) ss)

structure ParsedBlob where
  bunOffsets : BunOffsets
  bunData : Buf
  moduleStructSize : Nat
deriving DecidableEq

/-- `parseBunDataBlob(bunDataContent)`: verify the trailing sentinel, then
parse the 32-byte offsets header that precedes it. -/
def parseBunDataBlob (c : Buf) : Except String ParsedBlob :=
  if c.length < SIZEOF_OFFSETS + BUN_TRAILER.length then
    .error "BUN data is too small"
  else
    let trailerStart := c.length - BUN_TRAILER.length
    let trailerBytes := c.drop trailerStart
    if trailerBytes ≠ BUN_TRAILER then .error "BUN trailer not found"
    else
      let offsetsStart := c.length - SIZEOF_OFFSETS - BUN_TRAILER.length
      let offsetsBytes := subarr c offsetsStart (offsetsStart + SIZEOF_OFFSETS)
      let bunOffsets := parseOffsets offsetsBytes
      .ok ⟨bunOffsets, c, detectModuleStructSize bunOffsets.modulesPtr.length⟩

/-- The header-width disambiguation of `extractBunDataFromSection`
(bun-binary.js lines 174-198), returning `(headerSize, bunDataSize)`.
JS computes `sectionData.length - 4096` as a possibly negative number;
since the sizes compared against it are nonnegative, truncated
subtraction is equivalent. -/
def selectSectionHeader (s : Buf) : Except String (Nat × Nat) :=
  if s.length < 4 then .error "Section data too small"
  else
    let bunDataSizeU32 := readU32 s 0
    let expectedLengthU32 := 4 + bunDataSizeU32
    let bunDataSizeU64 := if 8 ≤ s.length then readU64 s 0 else 0
    let expectedLengthU64 := 8 + bunDataSizeU64
    if 8 ≤ s.length ∧ expectedLengthU64 ≤ s.length ∧ s.length - 4096 ≤ expectedLengthU64 then
      .ok (8, bunDataSizeU64)
    else if expectedLengthU32 ≤ s.length ∧ s.length - 4096 ≤ expectedLengthU32 then
      .ok (4, bunDataSizeU32)
    else .error "Cannot determine section header format"

/-- `extractBunDataFromSection(sectionData)`: select the header width,
then parse the blob `sectionData.subarray(headerSize, headerSize + size)`.
Returns the parsed blob together with the chosen header size. -/
def extractBunDataFromSection (s : Buf) : Except String (ParsedBlob × Nat) :=
  match selectSectionHeader s with
  | .error e => .error e
  | .ok (headerSize, bunDataSize) =>
    match parseBunDataBlob (subarr s headerSize (headerSize + bunDataSize)) with
    | .error e => .error e
    | .ok pb => .ok (pb, headerSize)

/-! ### Substring search (`Buffer.includes` / `Buffer.indexOf`) -/

/-- Whether the byte pattern `pat` occurs in `b` starting exactly at `i`. -/
def seqAt (b pat : Buf) (i : Nat) : Bool :=
  decide ((b.drop i).take pat.length = pat)

/-- Model of `buffer.includes(pat)`. -/
def containsSeq (b pat : Buf) : Bool :=
  (List.range (b.length + 1)).any (seqAt b pat)

/-- Model of `buffer.indexOf(pat)`: the first match position, if any. -/
def indexOfSeq (b pat : Buf) : Option Nat :=
  (List.range (b.length + 1)).find? (seqAt b pat)

/-! ### Module locator (`isClaudeModule`, `extractClaudeJs` core loop) -/

/-- UTF-8 bytes of the marker string searched by `extractClaudeJs`. -/
def flibMarker : Buf := [70, 108, 105, 98, 98, 101, 114, 116, 105, 103, 105, 98, 98, 101, 116, 105, 110, 103]

/-- `isClaudeModule(moduleName)` on the module name's bytes (the name
patterns are ASCII, so `endsWith`/`includes` on the decoded string agree
with the byte-level checks). -/
def isClaudeModule (name : Buf) : Bool :=
  List.isSuffixOf [47, 99, 108, 97, 117, 100, 101] name ||
  name == [99, 108, 97, 117, 100, 101] ||
  List.isSuffixOf [47, 99, 108, 97, 117, 100, 101, 46, 101, 120, 101] name ||
  name == [99, 108, 97, 117, 100, 101, 46, 101, 120, 101] ||
  containsSeq name [47, 99, 108, 105, 46, 106, 115] ||
  List.isSuffixOf [99, 108, 105, 46, 106, 115, 46, 106, 115, 99] name

inductive FieldKind where
  | contents : FieldKind
  | bytecode : FieldKind
deriving DecidableEq

/-- The locator's result: the selected payload bytes, the module's name
bytes, and which field (`contents` or `bytecode`) the payload came from. -/
structure LocResult where
  content : Buf
  moduleName : Buf
  type : FieldKind
deriving DecidableEq

/-- The fallback guard of `extractClaudeJs`:
`!claudeFallback || claudeFallback.content.length === 0`. -/
def fallbackAbsent : Option LocResult → Bool
  | none => true
  | some r => r.content.length == 0

/-- Whether a record's `contents` view contains the content marker
(`moduleContents.includes('Flibbertigibbeting')`). -/
def contentsHit (bunData : Buf) (m : CompiledModule) : Bool :=
  containsSeq (getStringPointerContent bunData m.contents) flibMarker

/-- Whether a record is a name-pattern (claude entrypoint) fallback with
nonempty contents (`isClaudeModule(moduleName) && moduleContents.length > 0`). -/
def nameFallbackHit (bunData : Buf) (m : CompiledModule) : Bool :=
  isClaudeModule (getStringPointerContent bunData m.name) &&
    decide (0 < (getStringPointerContent bunData m.contents).length)

/-- Whether a record's `bytecode` view contains the content marker
(`moduleBytecode.includes('Flibbertigibbeting')`). -/
def bytecodeHit (bunData : Buf) (m : CompiledModule) : Bool :=
  containsSeq (getStringPointerContent bunData m.bytecode) flibMarker

/-- The locator result `{content: moduleContents, moduleName, type: 'contents'}`. -/
def contentsRes (bunData : Buf) (m : CompiledModule) : LocResult :=
  ⟨getStringPointerContent bunData m.contents, getStringPointerContent bunData m.name, .contents⟩

/-- The locator result `{content: moduleBytecode, moduleName, type: 'bytecode'}`. -/
def bytecodeRes (bunData : Buf) (m : CompiledModule) : LocResult :=
  ⟨getStringPointerContent bunData m.bytecode, getStringPointerContent bunData m.name, .bytecode⟩

/-- The visitor loop of `extractClaudeJs` (bun-binary.js lines 303-331)
over already-decoded records, threading the `claudeFallback` state: a
content-marker hit in `contents` returns at once; a claude-named module
with nonempty contents overwrites the fallback (before the bytecode
check, as in the source); a content-marker hit in `bytecode` returns
only when no fallback with nonempty content is recorded; at the end
`target || claudeFallback` yields the fallback. -/
def extractLoop (bunData : Buf) : Option LocResult → List CompiledModule → Option LocResult
  | fb, [] => fb
  | fb, m :: ms =>
    if contentsHit bunData m then some (contentsRes bunData m)
    else if bytecodeHit bunData m &&
        fallbackAbsent (if nameFallbackHit bunData m then some (contentsRes bunData m) else fb) then
      some (bytecodeRes bunData m)
    else
      extractLoop bunData
        (if nameFallbackHit bunData m then some (contentsRes bunData m) else fb) ms

/-- `extractClaudeJs`'s selection over the decoded module table. -/
def extractClaudeJsFromData (bunData : Buf) (off : BunOffsets) (ss : Nat) : Option LocResult :=
  extractLoop bunData none (decodeModules bunData off ss)

/-- Declarative stopping condition of the scan at position `i`, with
`fbNone` recording whether no fallback predates the scanned records:
either the record's `contents` contains the marker, or its `bytecode`
does and no record up to and including position `i` (nor any earlier
one) is a name-pattern fallback. -/
def stopHitFrom (bunData : Buf) (fbNone : Bool) (ms : List CompiledModule) (i : Nat) : Bool :=
  contentsHit bunData (ms.getD i default) ||
    (bytecodeHit bunData (ms.getD i default) && fbNone &&
      !((ms.take (i + 1)).any (nameFallbackHit bunData)))

/-- Declarative stopping condition of the scan, position `i`: either the
record's `contents` contains the marker, or its `bytecode` does and no
record up to and including position `i` is a name-pattern fallback. -/
def stopHit (bunData : Buf) (ms : List CompiledModule) (i : Nat) : Bool :=
  stopHitFrom bunData true ms i

/-- Declarative specification of the locator: return at the first
position where the scan stops (`contents` hit wins over `bytecode` hit at
that position); if the scan never stops, return the last name-pattern
fallback's contents, or nothing. -/
def locateSpec (bunData : Buf) (ms : List CompiledModule) : Option LocResult :=
  match (List.range ms.length).find? (stopHit bunData ms) with
  | some i =>
    if contentsHit bunData (ms.getD i default) then some (contentsRes bunData (ms.getD i default))
    else some (bytecodeRes bunData (ms.getD i default))
  | none => ((ms.filter (nameFallbackHit bunData)).getLast?).map (contentsRes bunData)

/-! ### The patching helpers of `src/unnamed/part_000` -/

/-- `MARKER_WORDS` (UTF-8 bytes of each word). -/
def MARKER_WORDS : List Buf :=
  [[70, 108, 105, 98, 98, 101, 114, 116, 105, 103, 105, 98, 98, 101, 116, 105, 110, 103],
   [68, 105, 115, 99, 111, 109, 98, 111, 98, 117, 108, 97, 116, 105, 110, 103],
   [67, 108, 97, 117, 100, 105, 110, 103],
   [83, 109, 111, 111, 115, 104, 105, 110, 103],
   [87, 105, 98, 98, 108, 105, 110, 103],
   [83, 99, 104, 108, 101, 112, 112, 105, 110, 103]]

/-- `COMPLETION_VERBS` (UTF-8 bytes of each word). -/
def COMPLETION_VERBS : List Buf :=
  [[66, 97, 107, 101, 100],
   [66, 114, 101, 119, 101, 100],
   [67, 104, 117, 114, 110, 101, 100],
   [67, 111, 103, 105, 116, 97, 116, 101, 100],
   [67, 111, 111, 107, 101, 100],
   [67, 114, 117, 110, 99, 104, 101, 100],
   [83, 97, 117, 116, 195, 169, 101, 100],
   [87, 111, 114, 107, 101, 100]]

/-- UTF-8 bytes of the completion-pass anchor word `Cogitated`. -/
def cogitatedMarker : Buf := [67, 111, 103, 105, 116, 97, 116, 101, 100]

/-- UTF-8 bytes of the spinner replacement array text. -/
def thinkingRepl : Buf := [91, 34, 84, 104, 105, 110, 107, 105, 110, 103, 34, 93]

/-- UTF-8 bytes of the completion replacement array text. -/
def thoughtRepl : Buf := [91, 34, 84, 104, 111, 117, 103, 104, 116, 34, 93]

/-- The backward scan of `findArrayBoundaries` looking for `[` (0x5B),
decrementing `startIdx` while `startIdx > 0`, the byte differs from `[`
and fewer than 5000 steps were taken; returns the final index and step
count.  An out-of-range byte read compares unequal to `[`, as in JS. -/
def scanBackLoop (b : Buf) : Nat → Nat → Nat × Nat
  | 0, steps => (0, steps)
  | i + 1, steps =>
    if readU8 b (i + 1) ≠ 91 ∧ steps < 5000 then scanBackLoop b i (steps + 1)
    else (i + 1, steps)

/-- The forward scan of `findArrayBoundaries` looking for `]` (0x5D),
incrementing `endIdx` while `endIdx < buffer.length`, the byte differs
from `]` and fewer than 20000 steps were taken.  The fuel argument is
`buffer.length - endIdx`, so fuel 0 is exactly the `endIdx < length`
loop-exit. -/
def scanFwdLoop (b : Buf) : Nat → Nat → Nat → Nat × Nat
  | 0, e, steps => (e, steps)
  | fuel + 1, e, steps =>
    if readU8 b e ≠ 93 ∧ steps < 20000 then scanFwdLoop b fuel (e + 1) (steps + 1)
    else (e, steps)

/-- How many of `ws` occur quote-delimited (`"w"`) in `range`. -/
def countValidation (range : Buf) (ws : List Buf) : Nat :=
  ws.countP (fun w => containsSeq range (34 :: (w ++ [34])))

/-- `findArrayBoundaries(buffer, markerWord, validationWords, minValidationCount)`
(part_000 lines 116-154): anchor at the marker, scan back to `[` and
forward to `]`, then require enough quote-delimited validation words in
the bracketed range. -/
def findArrayBoundaries (b marker : Buf) (validationWords : List Buf) (minCount : Nat) :
    Option (Nat × Nat) :=
  match indexOfSeq b marker with
  | none => none
  | some idx =>
    if 5000 ≤ (scanBackLoop b idx 0).2 ∨ readU8 b (scanBackLoop b idx 0).1 ≠ 91 then none
    else if 20000 ≤ (scanFwdLoop b (b.length - idx) idx 0).2 ∨
        readU8 b (scanFwdLoop b (b.length - idx) idx 0).1 ≠ 93 then none
    else if countValidation
        (subarr b (scanBackLoop b idx 0).1 ((scanFwdLoop b (b.length - idx) idx 0).1 + 1))
        validationWords < minCount then none
    else some ((scanBackLoop b idx 0).1, (scanFwdLoop b (b.length - idx) idx 0).1)

/-- `replaceArrayInBuffer(buffer, startIdx, endIdx, replacement)`
(part_000 lines 164-178): space-pad the replacement to the length of the
region `[startIdx, endIdx]` and splice it in; `null` if it does not fit. -/
def replaceArrayInBuffer (b : Buf) (startIdx endIdx : Nat) (replacement : Buf) : Option Buf :=
  if endIdx - startIdx + 1 < replacement.length then none
  else some (subarr b 0 startIdx ++
    (replacement ++ List.replicate (endIdx - startIdx + 1 - replacement.length) 32) ++
    b.drop (endIdx + 1))

structure PatchResult where
  patched : Buf
  count : Nat
  spinnerCount : Nat
  completionCount : Nat
deriving DecidableEq

/-- The spinner-words pass of `patchBinaryContent` (part_000 lines
192-200): find the array anchored at `Flibbertigibbeting` and replace it
with `["Thinking"]`; returns the (possibly unchanged) buffer and the
spinner count. -/
def spinnerPass (buffer : Buf) : Buf × Nat :=
  match findArrayBoundaries buffer flibMarker MARKER_WORDS 3 with
  | some se =>
    match replaceArrayInBuffer buffer se.1 se.2 thinkingRepl with
    | some r => (r, 1)
    | none => (buffer, 0)
  | none => (buffer, 0)

/-- The completion-verbs pass of `patchBinaryContent` (part_000 lines
202-210): find the array anchored at `Cogitated` and replace it with
`["Thought"]`. -/
def completionPass (buffer : Buf) : Buf × Nat :=
  match findArrayBoundaries buffer cogitatedMarker COMPLETION_VERBS 3 with
  | some se =>
    match replaceArrayInBuffer buffer se.1 se.2 thoughtRepl with
    | some r => (r, 1)
    | none => (buffer, 0)
  | none => (buffer, 0)

/-- `patchBinaryContent(buffer)` (part_000 lines 187-221): the spinner
pass, then the completion pass on its result; `null` when neither patch
applied. -/
def patchBinaryContent (buffer : Buf) : Option PatchResult :=
  if (spinnerPass buffer).2 + (completionPass (spinnerPass buffer).1).2 = 0 then none
  else some ⟨(completionPass (spinnerPass buffer).1).1,
    (spinnerPass buffer).2 + (completionPass (spinnerPass buffer).1).2,
    (spinnerPass buffer).2, (completionPass (spinnerPass buffer).1).2⟩

/-! ### The archive rebuilder (`rebuildBunData`, bun-binary.js lines 340-484) -/

/-- The per-module data gathered by the collection pass of
`rebuildBunData` (lines 346-383): the resolved byte strings of all six
fields (with the targeted field substituted) and the four flag bytes. -/
structure ModuleMeta where
  name : Buf
  contents : Buf
  sourcemap : Buf
  bytecode : Buf
  moduleInfo : Buf
  bytecodeOriginPath : Buf
  encoding : Nat
  loader : Nat
  moduleFormat : Nat
  side : Nat
deriving DecidableEq

instance : Inhabited ModuleMeta := ⟨⟨[], [], [], [], [], [], 0, 0, 0, 0⟩⟩

/-- The per-record body of `rebuildBunData`'s collection pass: resolve
the record's field bytes against the arena, substituting `sub` for the
`contents` (or, when `tt` is `bytecode`, the `bytecode`) when the
record's name bytes equal `tn`.  `sub = none` models a null
`modifiedClaudeJs`.  Name comparison is on the bytes; for the ASCII
names involved this agrees with the JS string comparison. -/
def metaOf (bunData : Buf) (sub : Option Buf) (tn : Buf) (tt : FieldKind)
    (m : CompiledModule) : ModuleMeta :=
  { name := getStringPointerContent bunData m.name
    contents :=
      (match sub with
      | some nb =>
        if getStringPointerContent bunData m.name = tn then
          (if tt = FieldKind.bytecode then (getStringPointerContent bunData m.contents, nb)
          else (nb, getStringPointerContent bunData m.bytecode))
        else (getStringPointerContent bunData m.contents,
          getStringPointerContent bunData m.bytecode)
      | none => (getStringPointerContent bunData m.contents,
          getStringPointerContent bunData m.bytecode)).1
    sourcemap := getStringPointerContent bunData m.sourcemap
    bytecode :=
      (match sub with
      | some nb =>
        if getStringPointerContent bunData m.name = tn then
          (if tt = FieldKind.bytecode then (getStringPointerContent bunData m.contents, nb)
          else (nb, getStringPointerContent bunData m.bytecode))
        else (getStringPointerContent bunData m.contents,
          getStringPointerContent bunData m.bytecode)
      | none => (getStringPointerContent bunData m.contents,
          getStringPointerContent bunData m.bytecode)).2
    moduleInfo := getStringPointerContent bunData m.moduleInfo
    bytecodeOriginPath := getStringPointerContent bunData m.bytecodeOriginPath
    encoding := m.encoding, loader := m.loader
    moduleFormat := m.moduleFormat, side := m.side }

/-- The collection pass of `rebuildBunData` (lines 346-383): `metaOf`
applied to every decoded record in table order. -/
def collectMeta (bunData : Buf) (off : BunOffsets) (sub : Option Buf) (tn : Buf)
    (tt : FieldKind) (ss : Nat) : List ModuleMeta :=
  (decodeModules bunData off ss).map (metaOf bunData sub tn tt)

/-- The byte strings pushed to `stringsData` for one module (lines
377-381): six fields in the new format, four in the old. -/
def moduleFields (ss : Nat) (m : ModuleMeta) : List Buf :=
  if ss = SIZEOF_MODULE_NEW then
    [m.name, m.contents, m.sourcemap, m.bytecode, m.moduleInfo, m.bytecodeOriginPath]
  else [m.name, m.contents, m.sourcemap, m.bytecode]

/-- `stringsPerModule` (line 344). -/
def spmOf (ss : Nat) : Nat := if ss = SIZEOF_MODULE_NEW then 6 else 4

/-- The `stringOffsets` layout loop (lines 386-392) starting with cursor
`c`: each string is assigned `{offset: cursor, length}` and the cursor
advances by `length + 1` for the null terminator. -/
def layoutOffsetsFrom (c : Nat) : List Buf → List StringPointer
  | [] => []
  | d :: ds => ⟨c, d.length⟩ :: layoutOffsetsFrom (c + d.length + 1) ds

/-- The cursor value after laying out all strings: the sum of each
string's length plus one terminator. -/
def stringsTotal (ds : List Buf) : Nat := (ds.map (fun d => d.length + 1)).sum

/-- The layout quantities computed by `rebuildBunData` before any write
(lines 385-407). -/
structure RebuildState where
  metas : List ModuleMeta
  stringsData : List Buf
  stringOffsets : List StringPointer
  modulesListOffset : Nat
  modulesListSize : Nat
  argsBytes : Buf
  argsOffset : Nat
  offsetsOffset : Nat
  trailerOffset : Nat
  total : Nat
  entryPointId : Nat
  flags : Nat

/-- Compute the layout of the rebuilt archive: strings (each with one
terminator) from offset 0, then the module table, then the compile-args
bytes with terminator, then the 32-byte offsets header, then the trailer.
`flags` models `bunOffsets.flags || 0`, which for a numeric field equals
the field itself. -/
def rebuildState (bunData : Buf) (off : BunOffsets) (sub : Option Buf) (tn : Buf)
    (tt : FieldKind) (ss : Nat) : RebuildState :=
  let metas := collectMeta bunData off sub tn tt ss
  let sd := (metas.map (moduleFields ss)).flatten
  let mlo := stringsTotal sd
  let mls := metas.length * ss
  let args := getStringPointerContent bunData off.compileExecArgvPtr
  let cAO := mlo + mls
  let oO := cAO + args.length + 1
  { metas := metas, stringsData := sd, stringOffsets := layoutOffsetsFrom 0 sd
    modulesListOffset := mlo, modulesListSize := mls
    argsBytes := args, argsOffset := cAO
    offsetsOffset := oO, trailerOffset := oO + SIZEOF_OFFSETS
    total := oO + SIZEOF_OFFSETS + BUN_TRAILER.length
    entryPointId := off.entryPointId, flags := off.flags }

/-- The 32 bytes written for the Offsets structure (lines 466-478):
u64 byteCount, u32 modulesListOffset, u32 modulesListSize,
u32 entryPointId, u32 compileExecArgvOffset, u32 compileExecArgvLength,
u32 flags. -/
def encodeOffsets (byteCount mlo mls epid cao cal fl : Nat) : Buf :=
  u64le byteCount ++ u32le mlo ++ u32le mls ++ u32le epid ++ u32le cao ++ u32le cal ++ u32le fl

/-- The slice of `stringOffsets` used for module `i`
(`stringOffsets[baseStringIdx .. baseStringIdx + stringsPerModule)`). -/
def recordViews (ss : Nat) (sos : List StringPointer) (i : Nat) : List StringPointer :=
  (sos.drop (i * spmOf ss)).take (spmOf ss)

/-- The bytes of one rebuilt module record (lines 436-463): the
(offset, length) u32 pairs of its string views, then the four flag
bytes. -/
def encodeModuleRecord (views : List StringPointer) (m : ModuleMeta) : Buf :=
  (views.map (fun v => u32le v.offset ++ u32le v.length)).flatten ++
    [m.encoding, m.loader, m.moduleFormat, m.side]

/-- The write pass of `rebuildBunData` (lines 409-483), in source order:
zero-fill, strings with terminators, compile-args with terminator, the
module records, the offsets structure, the trailer.  (When a string is
empty the source skips the copy but still writes the terminator byte; on
the zero-filled buffer both behaviours store the same bytes.) -/
def rebuildWrite (st : RebuildState) (ss : Nat) : Buf :=
  writeBytes
    (writeBytes
      ((List.range st.metas.length).foldl
        (fun b i => writeBytes b (st.modulesListOffset + i * ss)
          (encodeModuleRecord (recordViews ss st.stringOffsets i) (st.metas.getD i default)))
        (writeBytes
          ((st.stringOffsets.zip st.stringsData).foldl
            (fun b p => writeBytes b p.1.offset (p.2 ++ [0]))
            (List.replicate st.total 0))
          st.argsOffset (st.argsBytes ++ [0])))
      st.offsetsOffset
      (encodeOffsets st.offsetsOffset st.modulesListOffset st.modulesListSize st.entryPointId
        st.argsOffset st.argsBytes.length st.flags))
    st.trailerOffset BUN_TRAILER

/-- `rebuildBunData(bunData, bunOffsets, modifiedClaudeJs,
targetModuleName, targetType, moduleStructSize)`. -/
def rebuildBunData (bunData : Buf) (off : BunOffsets) (sub : Option Buf) (tn : Buf)
    (tt : FieldKind) (ss : Nat) : Buf :=
  rebuildWrite (rebuildState bunData off sub tn tt ss) ss

/-- The (offset, length) views stored in the rebuilt module table, per
module in table order: module `i` receives
`stringOffsets[i*stringsPerModule ..]` (lines 436-456). -/
def rebuiltTableViews (bunData : Buf) (off : BunOffsets) (sub : Option Buf) (tn : Buf)
    (tt : FieldKind) (ss : Nat) : List (List StringPointer) :=
  let st := rebuildState bunData off sub tn tt ss
  (List.range st.metas.length).map (recordViews ss st.stringOffsets)

/-! ### Fixed-capacity repacking (`repackMachO`, `repackPE`) -/

/-- `buildSectionData(bunBuffer, headerSize)` (lines 489-498): a size
header of `headerSize` bytes followed by the archive bytes. -/
def buildSectionData (bunBuffer : Buf) (headerSize : Nat) : Buf :=
  writeBytes
    (if headerSize = 8 then
      writeBytes (List.replicate (headerSize + bunBuffer.length) 0) 0 (u64le bunBuffer.length)
    else
      writeBytes (List.replicate (headerSize + bunBuffer.length) 0) 0 (u32le bunBuffer.length))
    headerSize bunBuffer

/-- `repackMachO` (lines 527-577) as a transformation of the host file's
bytes: build the section data, fail before touching any file when it
exceeds the original section size, otherwise write the zero-padded
section (with the size header re-stating the unpadded length) over the
section's byte range of a copy of the original file.  The chmod, atomic
rename and best-effort codesign steps do not change the bytes. -/
def repackMachO (originalFile : Buf) (sectionFileOffset originalSectionSize : Nat)
    (newBunBuffer : Buf) (sectionHeaderSize : Nat) : Except String Buf :=
  if originalSectionSize < (buildSectionData newBunBuffer sectionHeaderSize).length then
    .error "Patched section data is larger than original"
  else
    .ok (writeBytes originalFile sectionFileOffset
      (if sectionHeaderSize = 8 then
        writeBytes (writeBytes (List.replicate originalSectionSize 0) 0
          (buildSectionData newBunBuffer sectionHeaderSize)) 0 (u64le newBunBuffer.length)
      else
        writeBytes (writeBytes (List.replicate originalSectionSize 0) 0
          (buildSectionData newBunBuffer sectionHeaderSize)) 0 (u32le newBunBuffer.length)))

/-- `repackPE` (lines 583-622): identical byte-level behaviour to the
Mach-O fixed-capacity strategy (it differs only in how the section is
located and in skipping chmod/codesign). -/
def repackPE (originalFile : Buf) (sectionFileOffset originalSectionSize : Nat)
    (newBunBuffer : Buf) (sectionHeaderSize : Nat) : Except String Buf :=
  if originalSectionSize < (buildSectionData newBunBuffer sectionHeaderSize).length then
    .error "Patched section data is larger than original"
  else
    .ok (writeBytes originalFile sectionFileOffset
      (if sectionHeaderSize = 8 then
        writeBytes (writeBytes (List.replicate originalSectionSize 0) 0
          (buildSectionData newBunBuffer sectionHeaderSize)) 0 (u64le newBunBuffer.length)
      else
        writeBytes (writeBytes (List.replicate originalSectionSize 0) 0
          (buildSectionData newBunBuffer sectionHeaderSize)) 0 (u32le newBunBuffer.length)))

/-- A trivial offsets header (empty module table, empty compile args)
used by concrete witnesses. -/
def w0off : BunOffsets := ⟨0, ⟨0, 0⟩, 0, ⟨0, 0⟩, 0⟩

/-- A concrete data arena for the locator counterexample: the content
marker followed by the byte of `a`. -/
def c7data : Buf := flibMarker ++ [97]

/-- A record whose `bytecode` view holds the marker and whose `contents`
view is empty; its name `a` matches no claude pattern. -/
def c7m0 : CompiledModule :=
  ⟨⟨18, 1⟩, ⟨18, 0⟩, ⟨0, 0⟩, ⟨0, 18⟩, ⟨0, 0⟩, ⟨0, 0⟩, 0, 0, 0, 0⟩

/-- A record whose `contents` view holds the marker. -/
def c7m1 : CompiledModule :=
  ⟨⟨18, 1⟩, ⟨0, 18⟩, ⟨0, 0⟩, ⟨18, 0⟩, ⟨0, 0⟩, ⟨0, 0⟩, 0, 0, 0, 0⟩

/-- UTF-8 bytes of `["Flibbertigibbeting","Discombobulating","Clauding"]`,
a concrete witness buffer holding a spinner-words array. -/
def w10buf : Buf :=
  [91, 34, 70, 108, 105, 98, 98, 101, 114, 116, 105, 103, 105, 98, 98, 101, 116, 105, 110,
   103, 34, 44, 34, 68, 105, 115, 99, 111, 109, 98, 111, 98, 117, 108, 97, 116, 105, 110,
   103, 34, 44, 34, 67, 108, 97, 117, 100, 105, 110, 103, 34, 93]

/-- A concrete two-module old-format blob whose string arena is packed
in the reverse of table order: a 10-byte arena holding `b` (offset 0)
and `a` (offset 2), then a 72-byte module table.  Module 0's name points
at `a` (offset 2), module 1's name at `b` (offset 0); all other string
fields are empty views at offset 4. -/
def c2data : Buf :=
  [98, 0, 97, 0, 0, 0, 0, 0, 0, 0] ++
  (u32le 2 ++ u32le 1 ++ u32le 4 ++ u32le 0 ++ u32le 4 ++ u32le 0 ++ u32le 4 ++ u32le 0 ++
    [0, 0, 0, 0]) ++
  (u32le 0 ++ u32le 1 ++ u32le 4 ++ u32le 0 ++ u32le 4 ++ u32le 0 ++ u32le 4 ++ u32le 0 ++
    [0, 0, 0, 0])

/-- The offsets header for `c2data`: the module table occupies bytes
10..82, the compile-args view is empty. -/
def c2off : BunOffsets := ⟨82, ⟨10, 72⟩, 0, ⟨82, 0⟩, 0⟩

/-- The string region of the rebuilt archive: every resolved string
followed by its null terminator, in layout order. -/
def rebuiltStrings (bunData : Buf) (off : BunOffsets) (sub : Option Buf) (tn : Buf)
    (tt : FieldKind) (ss : Nat) : Buf :=
  (((rebuildState bunData off sub tn tt ss).stringsData).map (fun d => d ++ [0])).flatten

/-- The module-table region of the rebuilt archive: the encoded records
in table order. -/
def rebuiltTable (bunData : Buf) (off : BunOffsets) (sub : Option Buf) (tn : Buf)
    (tt : FieldKind) (ss : Nat) : Buf :=
  ((List.range (rebuildState bunData off sub tn tt ss).metas.length).map (fun i =>
    encodeModuleRecord
      (recordViews ss (rebuildState bunData off sub tn tt ss).stringOffsets i)
      ((rebuildState bunData off sub tn tt ss).metas.getD i default))).flatten

/-- The bytes of the `i`-th record of the rebuilt module table. -/
def rebuiltRecord (bunData : Buf) (off : BunOffsets) (sub : Option Buf) (tn : Buf)
    (tt : FieldKind) (ss : Nat) (i : Nat) : Buf :=
  encodeModuleRecord
    (recordViews ss (rebuildState bunData off sub tn tt ss).stringOffsets i)
    ((rebuildState bunData off sub tn tt ss).metas.getD i default)

/-- A concrete offsets header for the C8 witness: one 52-byte module
record at offset 0, empty compile args. -/
def c8off : BunOffsets := ⟨52, ⟨0, 52⟩, 5, ⟨52, 0⟩, 7⟩

end Depester

namespace Depester

/-! ### Theorems: schema detection (C4, C5) and header selection (C6) -/

/-- C4: for every module-table byte length divisible by both 36 and 52,
`detectModuleStructSize` deterministically returns the new 52-byte record
size. -/
theorem claim_C4 (n : Nat) (h52 : n % 52 = 0) (h36 : n % 36 = 0) :
    detectModuleStructSize n = 52 := by
  simp only [detectModuleStructSize, SIZEOF_MODULE_NEW, SIZEOF_MODULE_OLD,
    SIZEOF_STRING_POINTER]
  norm_num [h52, h36]

/-- Witness for C4 at the concrete table length 468 = 36·13 = 52·9. -/
theorem claim_C4_witness :
    468 % 52 = 0 ∧ 468 % 36 = 0 ∧ detectModuleStructSize 468 = 52 :=
  ⟨by decide, by decide, claim_C4 468 (by decide) (by decide)⟩

/-- Counterexample to C5: the table length 1 is divisible by neither 36
nor 52, yet the decoder does not fail: `detectModuleStructSize` returns
the 52-byte record size, and `parseBunDataBlob` succeeds on a concrete
blob whose module-table length is 1, decoding with that record size. -/
theorem claim_C5_counterexample :
    ¬ (1 % 36 = 0) ∧ ¬ (1 % 52 = 0) ∧ detectModuleStructSize 1 = 52 ∧
      parseBunDataBlob
          (List.replicate 12 0 ++ [1, 0, 0, 0] ++ List.replicate 16 0 ++ BUN_TRAILER) =
        .ok ⟨⟨0, ⟨0, 1⟩, 0, ⟨0, 0⟩, 0⟩,
          List.replicate 12 0 ++ [1, 0, 0, 0] ++ List.replicate 16 0 ++ BUN_TRAILER, 52⟩ := by
  decide

/-- C5 amended: for every module-table byte length divisible by neither
36 nor 52, the decoder does not fail; `detectModuleStructSize` falls back
to the new 52-byte record size ("ambiguous or neither - prefer new
format"). -/
theorem claim_C5 (n : Nat) (h36 : ¬ n % 36 = 0) (h52 : ¬ n % 52 = 0) :
    detectModuleStructSize n = 52 := by
  simp only [detectModuleStructSize, SIZEOF_MODULE_NEW, SIZEOF_MODULE_OLD,
    SIZEOF_STRING_POINTER]
  norm_num [h52, h36]

/-- Witness for the amended C5 at the concrete table length 1. -/
theorem claim_C5_witness :
    ¬ (1 % 36 = 0) ∧ ¬ (1 % 52 = 0) ∧ detectModuleStructSize 1 = 52 :=
  ⟨by decide, by decide, claim_C5 1 (by decide) (by decide)⟩

/-- C6: the 8-byte header interpretation is selected exactly when the
section buffer has at least 8 bytes and `8 + u64@0` lies in
`[length - 4096, length]`; otherwise the 4-byte interpretation is
selected under the same tolerance for `4 + u32@0`; if neither tolerance
check passes, `extractBunDataFromSection`'s header selection fails. -/
theorem claim_C6 (s : Buf) :
    (selectSectionHeader s = .ok (8, readU64 s 0) ↔
      (8 ≤ s.length ∧ 8 + readU64 s 0 ≤ s.length ∧ s.length - 4096 ≤ 8 + readU64 s 0)) ∧
    (selectSectionHeader s = .ok (4, readU32 s 0) ↔
      (¬ (8 ≤ s.length ∧ 8 + readU64 s 0 ≤ s.length ∧ s.length - 4096 ≤ 8 + readU64 s 0) ∧
        4 + readU32 s 0 ≤ s.length ∧ s.length - 4096 ≤ 4 + readU32 s 0)) ∧
    ((∃ e, selectSectionHeader s = .error e) ↔
      (¬ (8 ≤ s.length ∧ 8 + readU64 s 0 ≤ s.length ∧ s.length - 4096 ≤ 8 + readU64 s 0) ∧
        ¬ (4 + readU32 s 0 ≤ s.length ∧ s.length - 4096 ≤ 4 + readU32 s 0))) := by
  unfold selectSectionHeader
  by_cases h4 : s.length < 4
  · have h8 : ¬ (8 ≤ s.length) := by omega
    have hU : ¬ (4 + readU32 s 0 ≤ s.length) := by omega
    simp [h4, h8, hU]
  · by_cases h8 : 8 ≤ s.length
    · by_cases c8a : 8 + readU64 s 0 ≤ s.length
      · by_cases c8b : s.length - 4096 ≤ 8 + readU64 s 0
        · simp [h4, h8, c8a, c8b]
        · by_cases c4a : 4 + readU32 s 0 ≤ s.length
          · by_cases c4b : s.length - 4096 ≤ 4 + readU32 s 0
            · simp [h4, h8, c8a, c8b, c4a, c4b]
            · simp [h4, h8, c8a, c8b, c4a, c4b]
          · simp [h4, h8, c8a, c8b, c4a]
      · by_cases c4a : 4 + readU32 s 0 ≤ s.length
        · by_cases c4b : s.length - 4096 ≤ 4 + readU32 s 0
          · simp [h4, h8, c8a, c4a, c4b]
          · simp [h4, h8, c8a, c4a, c4b]
        · simp [h4, h8, c8a, c4a]
    · have c8 : ¬ (8 + (0 : Nat) ≤ s.length) := by omega
      by_cases c4a : 4 + readU32 s 0 ≤ s.length
      · by_cases c4b : s.length - 4096 ≤ 4 + readU32 s 0
        · simp [h4, h8, c4a, c4b]
        · simp [h4, h8, c4a, c4b]
      · simp [h4, h8, c4a]

/-! ### Helper lemmas for the array patcher (C10) -/

theorem scanBackLoop_fst_le (b : Buf) : ∀ i steps, (scanBackLoop b i steps).1 ≤ i := by
  intro i
  induction i with
  | zero => intro steps; simp [scanBackLoop]
  | succ n ih =>
    intro steps
    rw [scanBackLoop]
    split
    · exact Nat.le_trans (ih (steps + 1)) (Nat.le_succ n)
    · exact Nat.le_refl _

theorem scanFwdLoop_fst_bounds (b : Buf) :
    ∀ fuel e steps,
      e ≤ (scanFwdLoop b fuel e steps).1 ∧ (scanFwdLoop b fuel e steps).1 ≤ e + fuel := by
  intro fuel
  induction fuel with
  | zero => intro e steps; simp [scanFwdLoop]
  | succ n ih =>
    intro e steps
    rw [scanFwdLoop]
    split
    · obtain ⟨h1, h2⟩ := ih (e + 1) (steps + 1)
      exact ⟨by omega, by omega⟩
    · exact ⟨Nat.le_refl _, by omega⟩

theorem findArrayBoundaries_bounds {b marker : Buf} {vw : List Buf} {mc : Nat}
    {se : Nat × Nat} (h : findArrayBoundaries b marker vw mc = some se) :
    se.1 ≤ se.2 ∧ se.2 < b.length := by
  unfold findArrayBoundaries at h
  split at h
  · cases h
  next idx hidx =>
    split at h
    · cases h
    next h1 =>
      split at h
      · cases h
      next h2 =>
        split at h
        · cases h
        next h3 =>
          simp only [Option.some.injEq] at h
          subst h
          push_neg at h1 h2
          have hs := scanBackLoop_fst_le b idx 0
          obtain ⟨he1, he2⟩ := scanFwdLoop_fst_bounds b (b.length - idx) idx 0
          have hidxle : idx < b.length + 1 := by
            unfold indexOfSeq at hidx
            have := List.mem_of_find?_eq_some hidx
            rwa [List.mem_range] at this
          refine ⟨by omega, ?_⟩
          rcases Nat.lt_or_ge (scanFwdLoop b (b.length - idx) idx 0).1 b.length with hlt | hge
          · exact hlt
          · exfalso
            have h0 : readU8 b (scanFwdLoop b (b.length - idx) idx 0).1 = 0 :=
              List.getD_eq_default _ _ hge
            have h93 := h2.2
            omega

theorem replaceArrayInBuffer_some_length {b : Buf} {s e : Nat} {repl out : Buf}
    (hse : s ≤ e) (helen : e < b.length)
    (h : replaceArrayInBuffer b s e repl = some out) :
    out.length = b.length := by
  unfold replaceArrayInBuffer at h
  split at h
  · cases h
  next hfit =>
    simp only [Option.some.injEq] at h
    subst h
    simp only [subarr, List.drop_zero, Nat.sub_zero, List.length_append, List.length_take,
      List.length_replicate, List.length_drop]
    omega

theorem spinnerPass_length (b : Buf) : (spinnerPass b).1.length = b.length := by
  unfold spinnerPass
  split
  next se hfb =>
    split
    next r hr =>
      obtain ⟨hse, helen⟩ := findArrayBoundaries_bounds hfb
      exact replaceArrayInBuffer_some_length hse helen hr
    next => rfl
  next => rfl

theorem completionPass_length (b : Buf) : (completionPass b).1.length = b.length := by
  unfold completionPass
  split
  next se hfb =>
    split
    next r hr =>
      obtain ⟨hse, helen⟩ := findArrayBoundaries_bounds hfb
      exact replaceArrayInBuffer_some_length hse helen hr
    next => rfl
  next => rfl

theorem getD_replicate_lt {n i a d : Nat} (h : i < n) :
    (List.replicate n a).getD i d = a := by
  rw [List.getD_eq_getElem?_getD, List.getElem?_replicate, if_pos h]
  rfl

/-- C10: with valid bounds and a replacement no longer than the region,
`replaceArrayInBuffer` returns a buffer of exactly the input's length
with the tail of the region space-padded; it returns `null` when the
replacement is longer than the region; and `patchBinaryContent` never
changes the byte length of the content it patches. -/
theorem claim_C10 :
    (∀ (b : Buf) (s e : Nat) (repl : Buf), s ≤ e → e < b.length → repl.length ≤ e - s + 1 →
      ∃ out, replaceArrayInBuffer b s e repl = some out ∧ out.length = b.length ∧
        ∀ i, s + repl.length ≤ i → i ≤ e → readU8 out i = 32) ∧
    (∀ (b : Buf) (s e : Nat) (repl : Buf), e - s + 1 < repl.length →
      replaceArrayInBuffer b s e repl = none) ∧
    (∀ (b : Buf) (r : PatchResult), patchBinaryContent b = some r →
      r.patched.length = b.length) := by
  refine ⟨?_, ?_, ?_⟩
  · intro b s e repl hse helen hfit
    have hout : replaceArrayInBuffer b s e repl =
        some (subarr b 0 s ++ (repl ++ List.replicate (e - s + 1 - repl.length) 32) ++
          b.drop (e + 1)) := by
      unfold replaceArrayInBuffer
      rw [if_neg (by omega)]
    refine ⟨_, hout, replaceArrayInBuffer_some_length hse helen hout, ?_⟩
    intro i hlo hhi
    have htake : subarr b 0 s = b.take s := by simp [subarr]
    have hlen : (subarr b 0 s).length = s := by
      rw [htake, List.length_take]
      omega
    unfold readU8
    rw [List.getD_append _ _ _ _
        (by simp only [List.length_append, List.length_replicate, hlen]; omega),
      List.getD_append_right _ _ _ _ (by omega),
      List.getD_append_right _ _ _ _ (by omega),
      getD_replicate_lt (by omega)]
  · intro b s e repl hfit
    unfold replaceArrayInBuffer
    rw [if_pos hfit]
  · intro b r h
    unfold patchBinaryContent at h
    split at h
    · cases h
    · simp only [Option.some.injEq] at h
      subst h
      show (completionPass (spinnerPass b).1).1.length = b.length
      rw [completionPass_length, spinnerPass_length]

/-- Witness for C10: a concrete in-bounds replacement, a concrete
overlong replacement, and a concrete buffer holding the spinner-words
array that `patchBinaryContent` patches without changing its length. -/
theorem claim_C10_witness :
    (∃ out, replaceArrayInBuffer [91, 97, 98, 93] 1 2 [120] = some out ∧
      out.length = 4 ∧ ∀ i, 1 + 1 ≤ i → i ≤ 2 → readU8 out i = 32) ∧
    replaceArrayInBuffer [91, 93] 0 1 [1, 2, 3] = none ∧
    ((patchBinaryContent w10buf).getD ⟨[], 0, 0, 0⟩).patched.length = w10buf.length := by
  refine ⟨claim_C10.1 [91, 97, 98, 93] 1 2 [120] (by decide) (by decide) (by decide),
    claim_C10.2.1 [91, 93] 0 1 [1, 2, 3] (by decide), ?_⟩
  have hs : (patchBinaryContent w10buf).isSome = true := by decide
  obtain ⟨r, hr⟩ := Option.isSome_iff_exists.mp hs
  rw [hr]
  simpa using claim_C10.2.2 w10buf r hr

/-! ### Byte-level write/read lemmas -/

theorem writeBytes_length (b : Buf) (off : Nat) (d : Buf) :
    (writeBytes b off d).length = b.length := by
  simp only [writeBytes, List.length_append, List.length_take, List.length_drop]
  omega

theorem writeBytes_in_bounds {b : Buf} {off : Nat} {d : Buf}
    (h : off + d.length ≤ b.length) :
    writeBytes b off d = b.take off ++ d ++ b.drop (off + d.length) := by
  simp only [writeBytes]
  congr 2
  exact List.take_of_length_le (by omega)

theorem writeSeq_length (ds : List Buf) : ∀ (b : Buf) (off : Nat),
    (writeSeq b off ds).length = b.length := by
  induction ds with
  | nil => intro b off; rfl
  | cons d ds ih =>
    intro b off
    rw [writeSeq, ih, writeBytes_length]

theorem writeSeq_eq (ds : List Buf) : ∀ (b : Buf) (off : Nat),
    off + (ds.map List.length).sum ≤ b.length →
    writeSeq b off ds =
      b.take off ++ ds.flatten ++ b.drop (off + (ds.map List.length).sum) := by
  induction ds with
  | nil => intro b off h; simp [writeSeq]
  | cons d ds ih =>
    intro b off h
    simp only [List.map_cons, List.sum_cons, List.flatten_cons] at h ⊢
    rw [writeSeq, ih _ _ (by rw [writeBytes_length]; omega),
      writeBytes_in_bounds (by omega)]
    have hlen2 : (b.take off ++ d).length = off + d.length := by
      simp only [List.length_append, List.length_take]
      omega
    rw [List.take_left' hlen2, List.drop_append_eq_append_drop,
      List.drop_eq_nil_of_le (by omega), hlen2]
    have hdd : (b.drop (off + d.length)).drop (off + d.length + (ds.map List.length).sum -
        (off + d.length)) = b.drop (off + (d.length + (ds.map List.length).sum)) := by
      rw [List.drop_drop]
      congr 1
      omega
    rw [hdd]
    simp [List.append_assoc]

/-- A write of `d` into a zero region that starts right after `A` and has
exactly the length of `d`. -/
theorem writeBytes_fill_zeros (A B d : Buf) :
    writeBytes (A ++ (List.replicate d.length 0 ++ B)) A.length d = A ++ (d ++ B) := by
  rw [writeBytes_in_bounds (by simp)]
  rw [List.take_left, List.drop_append_eq_append_drop,
    List.drop_eq_nil_of_le (by omega)]
  simp

/-- Sequential writes that exactly fill a zero region starting after `A`. -/
theorem writeSeq_fill_zeros (A B : Buf) (ds : List Buf) :
    writeSeq (A ++ (List.replicate (ds.map List.length).sum 0 ++ B)) A.length ds =
      A ++ (ds.flatten ++ B) := by
  rw [writeSeq_eq _ _ _ (by simp)]
  rw [List.take_left, List.drop_append_eq_append_drop,
    List.drop_eq_nil_of_le (by omega)]
  simp

theorem u32le_length (v : Nat) : (u32le v).length = 4 := rfl

theorem u64le_length (v : Nat) : (u64le v).length = 8 := rfl

theorem encodeOffsets_length (a b c d e f g : Nat) :
    (encodeOffsets a b c d e f g).length = 32 := rfl

theorem getD_concat {pre mid suf : Buf} {i : Nat} (h : i < mid.length) (d : Nat) :
    (pre ++ mid ++ suf).getD (pre.length + i) d = mid.getD i d := by
  rw [List.append_assoc, List.getD_append_right _ _ _ _ (by omega)]
  have : pre.length + i - pre.length = i := by omega
  rw [this, List.getD_append _ _ _ _ h]

theorem readU32_concat (pre : Buf) (v : Nat) (suf : Buf) :
    readU32 (pre ++ u32le v ++ suf) pre.length = v % 2 ^ 32 := by
  have h0 := @getD_concat pre (u32le v) suf 0 (by simp [u32le]) 0
  have h1 := @getD_concat pre (u32le v) suf 1 (by simp [u32le]) 0
  have h2 := @getD_concat pre (u32le v) suf 2 (by simp [u32le]) 0
  have h3 := @getD_concat pre (u32le v) suf 3 (by simp [u32le]) 0
  simp only [Nat.add_zero] at h0
  unfold readU32 readU8
  rw [h0, h1, h2, h3]
  simp only [u32le, List.getD_cons_zero, List.getD_cons_succ]
  norm_num
  omega

theorem readU64_concat (pre : Buf) (v : Nat) (suf : Buf) :
    readU64 (pre ++ u64le v ++ suf) pre.length = v % 2 ^ 64 := by
  unfold readU64 u64le
  have e1 : pre ++ (u32le v ++ u32le (v / 2 ^ 32)) ++ suf =
      pre ++ u32le v ++ (u32le (v / 2 ^ 32) ++ suf) := by
    simp [List.append_assoc]
  have e2 : pre ++ (u32le v ++ u32le (v / 2 ^ 32)) ++ suf =
      (pre ++ u32le v) ++ u32le (v / 2 ^ 32) ++ suf := by
    simp [List.append_assoc]
  rw [show readU32 (pre ++ (u32le v ++ u32le (v / 2 ^ 32)) ++ suf) pre.length = v % 2 ^ 32 by
      rw [e1]; exact readU32_concat pre v _,
    show readU32 (pre ++ (u32le v ++ u32le (v / 2 ^ 32)) ++ suf) (pre.length + 4) =
        (v / 2 ^ 32) % 2 ^ 32 by
      rw [e2, show pre.length + 4 = (pre ++ u32le v).length by simp [u32le]]
      exact readU32_concat _ _ _]
  norm_num
  omega

theorem subarr_concat_take {pre mid suf : Buf} {t : Nat} (h : t ≤ mid.length) :
    subarr (pre ++ mid ++ suf) pre.length (pre.length + t) = mid.take t := by
  unfold subarr
  rw [List.append_assoc, List.drop_left]
  rw [show pre.length + t - pre.length = t by omega]
  rw [List.take_append_eq_append_take, show t - mid.length = 0 by omega]
  simp

/-! ### Layout lemmas for the rebuilder -/

theorem rebuildState_metas (bunData : Buf) (off : BunOffsets) (sub : Option Buf) (tn : Buf)
    (tt : FieldKind) (ss : Nat) :
    (rebuildState bunData off sub tn tt ss).metas = collectMeta bunData off sub tn tt ss := rfl

theorem rebuildState_stringsData (bunData : Buf) (off : BunOffsets) (sub : Option Buf) (tn : Buf)
    (tt : FieldKind) (ss : Nat) :
    (rebuildState bunData off sub tn tt ss).stringsData =
      ((collectMeta bunData off sub tn tt ss).map (moduleFields ss)).flatten := rfl

theorem rebuildState_stringOffsets (bunData : Buf) (off : BunOffsets) (sub : Option Buf) (tn : Buf)
    (tt : FieldKind) (ss : Nat) :
    (rebuildState bunData off sub tn tt ss).stringOffsets =
      layoutOffsetsFrom 0 (rebuildState bunData off sub tn tt ss).stringsData := rfl

theorem rebuildState_mlo (bunData : Buf) (off : BunOffsets) (sub : Option Buf) (tn : Buf)
    (tt : FieldKind) (ss : Nat) :
    (rebuildState bunData off sub tn tt ss).modulesListOffset =
      stringsTotal (rebuildState bunData off sub tn tt ss).stringsData := rfl

theorem rebuildState_mls (bunData : Buf) (off : BunOffsets) (sub : Option Buf) (tn : Buf)
    (tt : FieldKind) (ss : Nat) :
    (rebuildState bunData off sub tn tt ss).modulesListSize =
      (rebuildState bunData off sub tn tt ss).metas.length * ss := rfl

theorem rebuildState_args (bunData : Buf) (off : BunOffsets) (sub : Option Buf) (tn : Buf)
    (tt : FieldKind) (ss : Nat) :
    (rebuildState bunData off sub tn tt ss).argsBytes =
      getStringPointerContent bunData off.compileExecArgvPtr := rfl

theorem rebuildState_argsOffset (bunData : Buf) (off : BunOffsets) (sub : Option Buf) (tn : Buf)
    (tt : FieldKind) (ss : Nat) :
    (rebuildState bunData off sub tn tt ss).argsOffset =
      (rebuildState bunData off sub tn tt ss).modulesListOffset +
        (rebuildState bunData off sub tn tt ss).modulesListSize := rfl

theorem rebuildState_oO (bunData : Buf) (off : BunOffsets) (sub : Option Buf) (tn : Buf)
    (tt : FieldKind) (ss : Nat) :
    (rebuildState bunData off sub tn tt ss).offsetsOffset =
      (rebuildState bunData off sub tn tt ss).argsOffset +
        (rebuildState bunData off sub tn tt ss).argsBytes.length + 1 := rfl

theorem rebuildState_tO (bunData : Buf) (off : BunOffsets) (sub : Option Buf) (tn : Buf)
    (tt : FieldKind) (ss : Nat) :
    (rebuildState bunData off sub tn tt ss).trailerOffset =
      (rebuildState bunData off sub tn tt ss).offsetsOffset + 32 := rfl

theorem rebuildState_total (bunData : Buf) (off : BunOffsets) (sub : Option Buf) (tn : Buf)
    (tt : FieldKind) (ss : Nat) :
    (rebuildState bunData off sub tn tt ss).total =
      (rebuildState bunData off sub tn tt ss).offsetsOffset + 48 := rfl

theorem rebuildState_epid (bunData : Buf) (off : BunOffsets) (sub : Option Buf) (tn : Buf)
    (tt : FieldKind) (ss : Nat) :
    (rebuildState bunData off sub tn tt ss).entryPointId = off.entryPointId := rfl

theorem rebuildState_flags (bunData : Buf) (off : BunOffsets) (sub : Option Buf) (tn : Buf)
    (tt : FieldKind) (ss : Nat) :
    (rebuildState bunData off sub tn tt ss).flags = off.flags := rfl

theorem stringsTotal_cons (d : Buf) (ds : List Buf) :
    stringsTotal (d :: ds) = d.length + 1 + stringsTotal ds := by
  simp [stringsTotal]

theorem layoutOffsetsFrom_length (ds : List Buf) :
    ∀ c, (layoutOffsetsFrom c ds).length = ds.length := by
  induction ds with
  | nil => intro c; rfl
  | cons d ds ih => intro c; simp [layoutOffsetsFrom, ih]

theorem layoutOffsetsFrom_getD (ds : List Buf) : ∀ (c j : Nat), j < ds.length →
    (layoutOffsetsFrom c ds).getD j default =
      ⟨c + stringsTotal (ds.take j), (ds.getD j []).length⟩ := by
  induction ds with
  | nil => intro c j h; simp at h
  | cons d ds ih =>
    intro c j h
    cases j with
    | zero => simp [layoutOffsetsFrom, stringsTotal]
    | succ i =>
      simp only [layoutOffsetsFrom, List.getD_cons_succ, List.take_succ_cons]
      rw [ih (c + d.length + 1) i (by simpa using h)]
      rw [stringsTotal_cons]
      congr 1
      omega

theorem strings_fold_eq (ds : List Buf) : ∀ (c : Nat) (b : Buf),
    ((layoutOffsetsFrom c ds).zip ds).foldl (fun b p => writeBytes b p.1.offset (p.2 ++ [0])) b =
      writeSeq b c (ds.map (fun d => d ++ [0])) := by
  induction ds with
  | nil => intro c b; rfl
  | cons d ds ih =>
    intro c b
    simp only [layoutOffsetsFrom, List.zip_cons_cons, List.foldl_cons, List.map_cons]
    rw [writeSeq]
    simp only [List.length_append, List.length_singleton, ← Nat.add_assoc]
    exact ih (c + d.length + 1) _

theorem table_fold_eq (ss : Nat) (sos : List StringPointer) (metas : List ModuleMeta)
    (base : Nat) :
    ∀ (n k : Nat),
      (∀ i, k ≤ i → i < k + n →
        (encodeModuleRecord (recordViews ss sos i) (metas.getD i default)).length = ss) →
      ∀ (b : Buf),
        (List.range' k n).foldl
          (fun b i => writeBytes b (base + i * ss)
            (encodeModuleRecord (recordViews ss sos i) (metas.getD i default))) b =
        writeSeq b (base + k * ss)
          ((List.range' k n).map
            (fun i => encodeModuleRecord (recordViews ss sos i) (metas.getD i default))) := by
  intro n
  induction n with
  | zero => intro k h b; rfl
  | succ m ih =>
    intro k h b
    rw [List.range'_succ]
    simp only [List.foldl_cons, List.map_cons]
    rw [writeSeq, h k (Nat.le_refl k) (by omega),
      show base + k * ss + ss = base + (k + 1) * ss by ring]
    exact ih (k + 1) (fun i h1 h2 => h i (by omega) (by omega)) _

theorem flatten_terminated_length (ds : List Buf) :
    ((ds.map (fun d => d ++ [0])).flatten).length = stringsTotal ds := by
  rw [List.length_flatten]
  simp only [List.map_map, Function.comp_def, List.length_append, List.length_singleton]
  rfl

theorem moduleFields_length (ss : Nat) (m : ModuleMeta) :
    (moduleFields ss m).length = spmOf ss := by
  unfold moduleFields spmOf
  split <;> rfl

theorem stringsData_length (metas : List ModuleMeta) (ss : Nat) :
    ((metas.map (moduleFields ss)).flatten).length = metas.length * spmOf ss := by
  rw [List.length_flatten]
  induction metas with
  | nil => simp
  | cons m ms ih =>
    simp only [List.map_cons, List.sum_cons, moduleFields_length, List.length_cons, ih]
    ring

theorem encodeModuleRecord_length (views : List StringPointer) (m : ModuleMeta) :
    (encodeModuleRecord views m).length = 8 * views.length + 4 := by
  unfold encodeModuleRecord
  rw [List.length_append, List.length_flatten]
  induction views with
  | nil => rfl
  | cons v vs ih =>
    simp only [List.map_cons, List.sum_cons, List.length_append, u32le_length,
      List.length_cons] at ih ⊢
    omega

theorem spm_record (ss : Nat) (h : ss = 36 ∨ ss = 52) : 8 * spmOf ss + 4 = ss := by
  rcases h with h | h <;> subst h <;> decide

theorem recordViews_length {ss : Nat} {sos : List StringPointer} {i : Nat}
    (h : (i + 1) * spmOf ss ≤ sos.length) :
    (recordViews ss sos i).length = spmOf ss := by
  unfold recordViews
  rw [List.length_take, List.length_drop]
  have h2 : (i + 1) * spmOf ss = i * spmOf ss + spmOf ss := by ring
  omega

theorem writeSeq_fill_zeros_start (B : Buf) (ds : List Buf) :
    writeSeq (List.replicate (ds.map List.length).sum 0 ++ B) 0 ds = ds.flatten ++ B := by
  simpa using writeSeq_fill_zeros [] B ds

theorem writeBytes_fill_zeros_end (A d : Buf) :
    writeBytes (A ++ List.replicate d.length 0) A.length d = A ++ d := by
  simpa using writeBytes_fill_zeros A [] d

theorem writeBytes_fill (A B d : Buf) (off z : Nat) (hoff : off = A.length)
    (hz : z = d.length) :
    writeBytes (A ++ (List.replicate z 0 ++ B)) off d = A ++ (d ++ B) := by
  subst hoff hz
  exact writeBytes_fill_zeros A B d

theorem writeBytes_fill_end (A d : Buf) (off z : Nat) (hoff : off = A.length)
    (hz : z = d.length) :
    writeBytes (A ++ List.replicate z 0) off d = A ++ d := by
  subst hoff hz
  exact writeBytes_fill_zeros_end A d

theorem writeSeq_fill (A B : Buf) (ds : List Buf) (off z : Nat) (hoff : off = A.length)
    (hz : z = (ds.map List.length).sum) :
    writeSeq (A ++ (List.replicate z 0 ++ B)) off ds = A ++ (ds.flatten ++ B) := by
  subst hoff hz
  exact writeSeq_fill_zeros A B ds

theorem writeSeq_fill_start (B : Buf) (ds : List Buf) (z : Nat)
    (hz : z = (ds.map List.length).sum) :
    writeSeq (List.replicate z 0 ++ B) 0 ds = ds.flatten ++ B := by
  subst hz
  exact writeSeq_fill_zeros_start B ds

theorem terminated_sum (ds : List Buf) :
    ((ds.map (fun d => d ++ [0])).map List.length).sum = stringsTotal ds := by
  simp only [List.map_map, Function.comp_def, List.length_append, List.length_singleton]
  rfl

theorem records_sum (enc : Nat → Buf) (ss : Nat) :
    ∀ (n k : Nat), (∀ i, k ≤ i → i < k + n → (enc i).length = ss) →
      (((List.range' k n).map enc).map List.length).sum = n * ss := by
  intro n
  induction n with
  | zero => intro k h; simp
  | succ m ih =>
    intro k h
    rw [List.range'_succ]
    simp only [List.map_cons, List.sum_cons]
    rw [h k (Nat.le_refl k) (by omega), ih (k + 1) (fun i h1 h2 => h i (by omega) (by omega))]
    ring

/-- The rebuilt buffer, in closed form: the write pass of `rebuildBunData`
fills the zero-initialised buffer exactly, region by region. -/
theorem rebuildWrite_structure (st : RebuildState) (ss : Nat)
    (h1 : st.stringOffsets = layoutOffsetsFrom 0 st.stringsData)
    (h2 : st.modulesListOffset = stringsTotal st.stringsData)
    (h3 : st.modulesListSize = st.metas.length * ss)
    (h4 : st.argsOffset = st.modulesListOffset + st.modulesListSize)
    (h5 : st.offsetsOffset = st.argsOffset + st.argsBytes.length + 1)
    (h6 : st.trailerOffset = st.offsetsOffset + 32)
    (h7 : st.total = st.offsetsOffset + 48)
    (h8 : st.stringsData.length = st.metas.length * spmOf ss)
    (h9 : 8 * spmOf ss + 4 = ss) :
    rebuildWrite st ss =
      (st.stringsData.map (fun d => d ++ [0])).flatten ++
      (((List.range st.metas.length).map (fun i =>
        encodeModuleRecord (recordViews ss st.stringOffsets i)
          (st.metas.getD i default))).flatten ++
      ((st.argsBytes ++ [0]) ++
      (encodeOffsets st.offsetsOffset st.modulesListOffset st.modulesListSize st.entryPointId
        st.argsOffset st.argsBytes.length st.flags ++
      BUN_TRAILER))) := by
  obtain ⟨metas, sd, sos, mlo, mls, args, cAO, oO, tO, total, epid, fl⟩ := st
  simp only at h1 h2 h3 h4 h5 h6 h7 h8 ⊢
  subst h1 h2 h3 h4 h5 h6 h7
  unfold rebuildWrite
  simp only
  -- record encodings and their lengths
  have hrecl : ∀ i, i < metas.length →
      (encodeModuleRecord (recordViews ss (layoutOffsetsFrom 0 sd) i)
        (metas.getD i default)).length = ss := by
    intro i hi
    rw [encodeModuleRecord_length, recordViews_length, h9]
    rw [layoutOffsetsFrom_length, h8]
    exact Nat.mul_le_mul_right _ (by omega)
  have hrsum : (((List.range' 0 metas.length).map (fun i =>
      encodeModuleRecord (recordViews ss (layoutOffsetsFrom 0 sd) i)
        (metas.getD i default))).map List.length).sum = metas.length * ss :=
    records_sum _ ss metas.length 0 (fun i hk hi => hrecl i (by omega))
  have hSlen : ((sd.map (fun d => d ++ [0])).flatten).length = stringsTotal sd :=
    flatten_terminated_length sd
  have hTlen : (((List.range' 0 metas.length).map (fun i =>
      encodeModuleRecord (recordViews ss (layoutOffsetsFrom 0 sd) i)
        (metas.getD i default))).flatten).length = metas.length * ss := by
    rw [List.length_flatten, hrsum]
  -- step 1: the strings pass fills [0, stringsTotal sd)
  rw [strings_fold_eq]
  rw [show ((((stringsTotal sd + metas.length * ss) + args.length) + 1) + 48 : Nat) =
      stringsTotal sd + (metas.length * ss + (args.length + 1 + 48)) by ring]
  rw [List.replicate_add]
  rw [writeSeq_fill_start _ _ _ (terminated_sum sd).symm]
  rw [List.replicate_add, List.replicate_add]
  -- step 2: the compile-args pass fills [argsOffset, argsOffset + args.length + 1)
  have e1 : (sd.map (fun d => d ++ [0])).flatten ++
      (List.replicate (metas.length * ss) (0 : Nat) ++
        (List.replicate (args.length + 1) 0 ++ List.replicate 48 0)) =
      ((sd.map (fun d => d ++ [0])).flatten ++ List.replicate (metas.length * ss) 0) ++
        (List.replicate (args.length + 1) 0 ++ List.replicate 48 0) := by
    simp [List.append_assoc]
  rw [e1]
  rw [writeBytes_fill
    ((sd.map (fun d => d ++ [0])).flatten ++ List.replicate (metas.length * ss) 0)
    (List.replicate 48 0) (args ++ [0]) (stringsTotal sd + metas.length * ss)
    (args.length + 1) (by simp [hSlen]) (by simp)]
  -- step 3: the module-table pass fills [modulesListOffset, argsOffset)
  rw [List.range_eq_range']
  rw [table_fold_eq ss (layoutOffsetsFrom 0 sd) metas (stringsTotal sd) metas.length 0
    (fun i h1 h2 => hrecl i (by omega))]
  have e2 : ((sd.map (fun d => d ++ [0])).flatten ++ List.replicate (metas.length * ss) (0 : Nat)) ++
      ((args ++ [0]) ++ List.replicate 48 0) =
      (sd.map (fun d => d ++ [0])).flatten ++
        (List.replicate (metas.length * ss) 0 ++ ((args ++ [0]) ++ List.replicate 48 0)) := by
    simp [List.append_assoc]
  rw [e2]
  rw [writeSeq_fill ((sd.map (fun d => d ++ [0])).flatten)
    ((args ++ [0]) ++ List.replicate 48 0)
    ((List.range' 0 metas.length).map (fun i =>
      encodeModuleRecord (recordViews ss (layoutOffsetsFrom 0 sd) i) (metas.getD i default)))
    (stringsTotal sd + 0 * ss) (metas.length * ss)
    (by simp [hSlen]) hrsum.symm]
  -- step 4: the offsets-header pass fills [offsetsOffset, offsetsOffset + 32)
  rw [show (48 : Nat) = 32 + 16 from rfl, List.replicate_add]
  have e3 : (sd.map (fun d => d ++ [0])).flatten ++
      (((List.range' 0 metas.length).map (fun i =>
        encodeModuleRecord (recordViews ss (layoutOffsetsFrom 0 sd) i)
          (metas.getD i default))).flatten ++
        ((args ++ [0]) ++ (List.replicate 32 0 ++ List.replicate 16 0))) =
      ((sd.map (fun d => d ++ [0])).flatten ++
        (((List.range' 0 metas.length).map (fun i =>
          encodeModuleRecord (recordViews ss (layoutOffsetsFrom 0 sd) i)
            (metas.getD i default))).flatten ++ (args ++ [0]))) ++
        (List.replicate 32 0 ++ List.replicate 16 0) := by
    simp [List.append_assoc]
  rw [e3]
  rw [writeBytes_fill
    ((sd.map (fun d => d ++ [0])).flatten ++
      (((List.range' 0 metas.length).map (fun i =>
        encodeModuleRecord (recordViews ss (layoutOffsetsFrom 0 sd) i)
          (metas.getD i default))).flatten ++ (args ++ [0])))
    (List.replicate 16 0)
    (encodeOffsets (stringsTotal sd + metas.length * ss + args.length + 1) (stringsTotal sd)
      (metas.length * ss) epid (stringsTotal sd + metas.length * ss) args.length fl)
    (stringsTotal sd + metas.length * ss + args.length + 1) 32
    (by
      simp only [List.length_append, List.length_cons, List.length_nil, hSlen, hTlen]
      omega)
    (encodeOffsets_length _ _ _ _ _ _ _).symm]
  -- step 5: the trailer pass fills the final 16 bytes
  have e4 : ((sd.map (fun d => d ++ [0])).flatten ++
      (((List.range' 0 metas.length).map (fun i =>
        encodeModuleRecord (recordViews ss (layoutOffsetsFrom 0 sd) i)
          (metas.getD i default))).flatten ++ (args ++ [0]))) ++
      (encodeOffsets (stringsTotal sd + metas.length * ss + args.length + 1) (stringsTotal sd)
        (metas.length * ss) epid (stringsTotal sd + metas.length * ss) args.length fl ++
        List.replicate 16 0) =
      (((sd.map (fun d => d ++ [0])).flatten ++
        (((List.range' 0 metas.length).map (fun i =>
          encodeModuleRecord (recordViews ss (layoutOffsetsFrom 0 sd) i)
            (metas.getD i default))).flatten ++ (args ++ [0]))) ++
        encodeOffsets (stringsTotal sd + metas.length * ss + args.length + 1) (stringsTotal sd)
          (metas.length * ss) epid (stringsTotal sd + metas.length * ss) args.length fl) ++
        List.replicate 16 0 := by
    simp [List.append_assoc]
  rw [e4]
  rw [writeBytes_fill_end
    (((sd.map (fun d => d ++ [0])).flatten ++
      (((List.range' 0 metas.length).map (fun i =>
        encodeModuleRecord (recordViews ss (layoutOffsetsFrom 0 sd) i)
          (metas.getD i default))).flatten ++ (args ++ [0]))) ++
      encodeOffsets (stringsTotal sd + metas.length * ss + args.length + 1) (stringsTotal sd)
        (metas.length * ss) epid (stringsTotal sd + metas.length * ss) args.length fl)
    BUN_TRAILER (stringsTotal sd + metas.length * ss + args.length + 1 + 32) 16
    (by
      simp only [List.length_append, List.length_cons, List.length_nil, hSlen, hTlen,
        encodeOffsets_length]
      omega)
    rfl]
  simp [List.append_assoc]


/-! ### Read-back lemmas: parsing what the rebuilder wrote -/

theorem getD_append_right_off {α : Type} {pre rest : List α} (k : Nat) (d : α) :
    (pre ++ rest).getD (pre.length + k) d = rest.getD k d := by
  rw [List.getD_append_right _ _ _ _ (by omega)]
  congr 1
  omega

theorem readU32_append_right (pre rest : Buf) (k : Nat) :
    readU32 (pre ++ rest) (pre.length + k) = readU32 rest k := by
  unfold readU32 readU8
  rw [show pre.length + k + 1 = pre.length + (k + 1) by ring,
    show pre.length + k + 2 = pre.length + (k + 2) by ring,
    show pre.length + k + 3 = pre.length + (k + 3) by ring,
    getD_append_right_off k 0, getD_append_right_off (k + 1) 0,
    getD_append_right_off (k + 2) 0, getD_append_right_off (k + 3) 0]

theorem parseStringPointer_append_right (pre rest : Buf) (k : Nat) :
    parseStringPointer (pre ++ rest) (pre.length + k) = parseStringPointer rest k := by
  unfold parseStringPointer
  rw [readU32_append_right, show pre.length + k + 4 = pre.length + (k + 4) by ring,
    readU32_append_right]

theorem readU64_append_right (pre rest : Buf) (k : Nat) :
    readU64 (pre ++ rest) (pre.length + k) = readU64 rest k := by
  unfold readU64
  rw [readU32_append_right, show pre.length + k + 4 = pre.length + (k + 4) by ring,
    readU32_append_right]


theorem readU32_at_zero (v : Nat) (suf : Buf) :
    readU32 (u32le v ++ suf) 0 = v % 2 ^ 32 := by
  simpa using readU32_concat [] v suf

theorem readU64_at_zero (v : Nat) (suf : Buf) :
    readU64 (u64le v ++ suf) 0 = v % 2 ^ 64 := by
  simpa using readU64_concat [] v suf

theorem parseOffsets_encode (a b c d e f g : Nat) :
    parseOffsets (encodeOffsets a b c d e f g) =
      ⟨a % 2 ^ 64, ⟨b % 2 ^ 32, c % 2 ^ 32⟩, d % 2 ^ 32, ⟨e % 2 ^ 32, f % 2 ^ 32⟩, g % 2 ^ 32⟩ := by
  have ha : readU64 (encodeOffsets a b c d e f g) 0 = a % 2 ^ 64 := by
    rw [show encodeOffsets a b c d e f g =
      u64le a ++ (u32le b ++ u32le c ++ u32le d ++ u32le e ++ u32le f ++ u32le g) by
        simp [encodeOffsets, List.append_assoc]]
    exact readU64_at_zero a _
  have hb : readU32 (encodeOffsets a b c d e f g) 8 = b % 2 ^ 32 := by
    have h := readU32_concat (u64le a) b (u32le c ++ u32le d ++ u32le e ++ u32le f ++ u32le g)
    rw [show (u64le a).length = 8 from rfl] at h
    rw [show encodeOffsets a b c d e f g =
      u64le a ++ u32le b ++ (u32le c ++ u32le d ++ u32le e ++ u32le f ++ u32le g) by
        simp [encodeOffsets, List.append_assoc]]
    exact h
  have hc : readU32 (encodeOffsets a b c d e f g) 12 = c % 2 ^ 32 := by
    have h := readU32_concat (u64le a ++ u32le b) c (u32le d ++ u32le e ++ u32le f ++ u32le g)
    rw [show (u64le a ++ u32le b).length = 12 from rfl] at h
    rw [show encodeOffsets a b c d e f g =
      (u64le a ++ u32le b) ++ u32le c ++ (u32le d ++ u32le e ++ u32le f ++ u32le g) by
        simp [encodeOffsets, List.append_assoc]]
    exact h
  have hd : readU32 (encodeOffsets a b c d e f g) 16 = d % 2 ^ 32 := by
    have h := readU32_concat (u64le a ++ u32le b ++ u32le c) d
      (u32le e ++ u32le f ++ u32le g)
    rw [show (u64le a ++ u32le b ++ u32le c).length = 16 from rfl] at h
    rw [show encodeOffsets a b c d e f g =
      (u64le a ++ u32le b ++ u32le c) ++ u32le d ++ (u32le e ++ u32le f ++ u32le g) by
        simp [encodeOffsets, List.append_assoc]]
    exact h
  have he : readU32 (encodeOffsets a b c d e f g) 20 = e % 2 ^ 32 := by
    have h := readU32_concat (u64le a ++ u32le b ++ u32le c ++ u32le d) e
      (u32le f ++ u32le g)
    rw [show (u64le a ++ u32le b ++ u32le c ++ u32le d).length = 20 from rfl] at h
    rw [show encodeOffsets a b c d e f g =
      (u64le a ++ u32le b ++ u32le c ++ u32le d) ++ u32le e ++ (u32le f ++ u32le g) by
        simp [encodeOffsets, List.append_assoc]]
    exact h
  have hf : readU32 (encodeOffsets a b c d e f g) 24 = f % 2 ^ 32 := by
    have h := readU32_concat (u64le a ++ u32le b ++ u32le c ++ u32le d ++ u32le e) f (u32le g)
    rw [show (u64le a ++ u32le b ++ u32le c ++ u32le d ++ u32le e).length = 24 from rfl] at h
    rw [show encodeOffsets a b c d e f g =
      (u64le a ++ u32le b ++ u32le c ++ u32le d ++ u32le e) ++ u32le f ++ u32le g by
        simp [encodeOffsets, List.append_assoc]]
    exact h
  have hg : readU32 (encodeOffsets a b c d e f g) 28 = g % 2 ^ 32 := by
    have h := readU32_concat (u64le a ++ u32le b ++ u32le c ++ u32le d ++ u32le e ++ u32le f)
      g []
    rw [show (u64le a ++ u32le b ++ u32le c ++ u32le d ++ u32le e ++ u32le f).length = 28
      from rfl] at h
    rw [show encodeOffsets a b c d e f g =
      (u64le a ++ u32le b ++ u32le c ++ u32le d ++ u32le e ++ u32le f) ++ u32le g ++ [] by
        simp [encodeOffsets, List.append_assoc]]
    exact h
  unfold parseOffsets parseStringPointer
  rw [ha, hb, show (8 : Nat) + 4 = 12 from rfl, hc, hd, he,
    show (20 : Nat) + 4 = 24 from rfl, hf, hg]

theorem stringsTotal_nil : stringsTotal [] = 0 := rfl

theorem readU64_encodeOffsets_head (pre : Buf) (a b c d e f g : Nat) (suf : Buf) (k : Nat)
    (hk : k = pre.length) :
    readU64 (pre ++ (encodeOffsets a b c d e f g ++ suf)) k = a % 2 ^ 64 := by
  subst hk
  have h1 : readU64 (pre ++ (encodeOffsets a b c d e f g ++ suf)) pre.length =
      readU64 (encodeOffsets a b c d e f g ++ suf) 0 := by
    simpa using readU64_append_right pre (encodeOffsets a b c d e f g ++ suf) 0
  rw [h1]
  rw [show encodeOffsets a b c d e f g ++ suf =
    u64le a ++ (u32le b ++ u32le c ++ u32le d ++ u32le e ++ u32le f ++ u32le g ++ suf) by
      simp [encodeOffsets, List.append_assoc]]
  exact readU64_at_zero a _

theorem parse_pairs (tail : Buf) :
    ∀ (views : List StringPointer) (j : Nat), j < views.length →
      parseStringPointer
        ((views.map (fun v => u32le v.offset ++ u32le v.length)).flatten ++ tail) (8 * j) =
        ⟨(views.getD j default).offset % 2 ^ 32, (views.getD j default).length % 2 ^ 32⟩ := by
  intro views
  induction views with
  | nil => intro j h; simp at h
  | cons v vs ih =>
    intro j hj
    cases j with
    | zero =>
      simp only [List.map_cons, List.flatten_cons, List.getD_cons_zero, Nat.mul_zero]
      unfold parseStringPointer
      have e : ((u32le v.offset ++ u32le v.length) ++
          (vs.map (fun v => u32le v.offset ++ u32le v.length)).flatten) ++ tail =
          u32le v.offset ++ (u32le v.length ++
            ((vs.map (fun v => u32le v.offset ++ u32le v.length)).flatten ++ tail)) := by
        simp [List.append_assoc]
      rw [e]
      rw [show (0 : Nat) + 4 = (u32le v.offset).length + 0 from rfl]
      rw [readU32_append_right]
      rw [readU32_at_zero, readU32_at_zero]
    | succ i =>
      simp only [List.map_cons, List.flatten_cons, List.getD_cons_succ]
      have e : ((u32le v.offset ++ u32le v.length) ++
          (vs.map (fun v => u32le v.offset ++ u32le v.length)).flatten) ++ tail =
          (u32le v.offset ++ u32le v.length) ++
            ((vs.map (fun v => u32le v.offset ++ u32le v.length)).flatten ++ tail) := by
        simp [List.append_assoc]
      rw [e]
      rw [show (8 : Nat) * (i + 1) = (u32le v.offset ++ u32le v.length).length + 8 * i by
        simp only [List.length_append, u32le_length]; omega]
      rw [parseStringPointer_append_right]
      exact ih i (by simpa using hj)

theorem pairs_flatten_length (views : List StringPointer) :
    ((views.map (fun v => u32le v.offset ++ u32le v.length)).flatten).length =
      8 * views.length := by
  rw [List.length_flatten]
  induction views with
  | nil => simp
  | cons v vs ih =>
    simp only [List.map_cons, List.sum_cons, List.length_append, u32le_length,
      List.length_cons, ih]
    ring

/-- Parsing a rebuilt module record (with anything after it) recovers the
written views (mod 2^32) and flag bytes. -/
theorem parse_encodeModuleRecord (views : List StringPointer) (m : ModuleMeta) (ss : Nat)
    (extra : Buf) (hss : ss = 36 ∨ ss = 52) (hviews : views.length = spmOf ss) :
    parseCompiledModule (encodeModuleRecord views m ++ extra) 0 ss =
      { name := ⟨(views.getD 0 default).offset % 2 ^ 32, (views.getD 0 default).length % 2 ^ 32⟩
        contents := ⟨(views.getD 1 default).offset % 2 ^ 32, (views.getD 1 default).length % 2 ^ 32⟩
        sourcemap := ⟨(views.getD 2 default).offset % 2 ^ 32, (views.getD 2 default).length % 2 ^ 32⟩
        bytecode := ⟨(views.getD 3 default).offset % 2 ^ 32, (views.getD 3 default).length % 2 ^ 32⟩
        moduleInfo := if ss = 52 then
          ⟨(views.getD 4 default).offset % 2 ^ 32, (views.getD 4 default).length % 2 ^ 32⟩
          else ⟨0, 0⟩
        bytecodeOriginPath := if ss = 52 then
          ⟨(views.getD 5 default).offset % 2 ^ 32, (views.getD 5 default).length % 2 ^ 32⟩
          else ⟨0, 0⟩
        encoding := m.encoding, loader := m.loader
        moduleFormat := m.moduleFormat, side := m.side } := by
  have eflat : encodeModuleRecord views m ++ extra =
      (views.map (fun v => u32le v.offset ++ u32le v.length)).flatten ++
        ([m.encoding, m.loader, m.moduleFormat, m.side] ++ extra) := by
    simp [encodeModuleRecord, List.append_assoc]
  have hsp : ∀ j, j < views.length →
      parseStringPointer (encodeModuleRecord views m ++ extra) (8 * j) =
        ⟨(views.getD j default).offset % 2 ^ 32, (views.getD j default).length % 2 ^ 32⟩ := by
    intro j hj
    rw [eflat]
    exact parse_pairs _ views j hj
  have hflag : ∀ c, readU8 (encodeModuleRecord views m ++ extra) (8 * views.length + c) =
      ([m.encoding, m.loader, m.moduleFormat, m.side] ++ extra).getD c 0 := by
    intro c
    rw [eflat]
    unfold readU8
    rw [show 8 * views.length =
      ((views.map (fun v => u32le v.offset ++ u32le v.length)).flatten).length from
        (pairs_flatten_length views).symm]
    exact getD_append_right_off c 0
  rcases hss with h | h <;> subst h
  · -- old format, 4 views
    have hv : views.length = 4 := hviews
    rw [parseCompiledModule, if_neg (by decide)]
    rw [show (0 : Nat) = 8 * 0 from rfl, hsp 0 (by omega),
      show (8 : Nat) * 0 + 8 = 8 * 1 from rfl, hsp 1 (by omega),
      show (8 : Nat) * 0 + 16 = 8 * 2 from rfl, hsp 2 (by omega),
      show (8 : Nat) * 0 + 24 = 8 * 3 from rfl, hsp 3 (by omega),
      show (8 : Nat) * 0 + 32 = 8 * views.length + 0 by omega,
      show (8 : Nat) * 0 + 33 = 8 * views.length + 1 by omega,
      show (8 : Nat) * 0 + 34 = 8 * views.length + 2 by omega,
      show (8 : Nat) * 0 + 35 = 8 * views.length + 3 by omega,
      hflag 0, hflag 1, hflag 2, hflag 3]
    simp
  · -- new format, 6 views
    have hv : views.length = 6 := hviews
    rw [parseCompiledModule, if_pos (by decide)]
    rw [show (0 : Nat) = 8 * 0 from rfl, hsp 0 (by omega),
      show (8 : Nat) * 0 + 8 = 8 * 1 from rfl, hsp 1 (by omega),
      show (8 : Nat) * 0 + 16 = 8 * 2 from rfl, hsp 2 (by omega),
      show (8 : Nat) * 0 + 24 = 8 * 3 from rfl, hsp 3 (by omega),
      show (8 : Nat) * 0 + 32 = 8 * 4 from rfl, hsp 4 (by omega),
      show (8 : Nat) * 0 + 40 = 8 * 5 from rfl, hsp 5 (by omega),
      show (8 : Nat) * 0 + 48 = 8 * views.length + 0 by omega,
      show (8 : Nat) * 0 + 49 = 8 * views.length + 1 by omega,
      show (8 : Nat) * 0 + 50 = 8 * views.length + 2 by omega,
      show (8 : Nat) * 0 + 51 = 8 * views.length + 3 by omega,
      hflag 0, hflag 1, hflag 2, hflag 3]
    simp

theorem subarr_append_right (pre rest : Buf) (a b : Nat) :
    subarr (pre ++ rest) (pre.length + a) (pre.length + b) = subarr rest a b := by
  unfold subarr
  rw [List.drop_append_eq_append_drop, List.drop_eq_nil_of_le (by omega), List.nil_append,
    show pre.length + a - pre.length = a from by omega,
    show pre.length + b - (pre.length + a) = b - a from by omega]

theorem subarr_congr (pre rest : Buf) (a b a2 b2 : Nat) (ha : a2 = pre.length + a)
    (hb : b2 = pre.length + b) :
    subarr (pre ++ rest) a2 b2 = subarr rest a b := by
  subst ha hb
  exact subarr_append_right pre rest a b

theorem subarr_flatten_piece (ds : List Buf) :
    ∀ (g : Nat) (rest : Buf), g < ds.length →
      subarr ((ds.map (fun d => d ++ [0])).flatten ++ rest) (stringsTotal (ds.take g))
          (stringsTotal (ds.take g) + (ds.getD g []).length) = ds.getD g [] := by
  induction ds with
  | nil => intro g rest h; simp at h
  | cons d ds ih =>
    intro g rest h
    cases g with
    | zero =>
      simp only [List.take_zero, stringsTotal_nil, List.getD_cons_zero, List.map_cons,
        List.flatten_cons, Nat.zero_add]
      unfold subarr
      simp only [List.drop_zero, Nat.sub_zero]
      have e : ((d ++ [0]) ++ (ds.map (fun d => d ++ [0])).flatten) ++ rest =
          d ++ ([0] ++ ((ds.map (fun d => d ++ [0])).flatten ++ rest)) := by
        simp [List.append_assoc]
      rw [e, List.take_append_eq_append_take, show d.length - d.length = 0 from by omega]
      simp
    | succ g2 =>
      simp only [List.take_succ_cons, List.getD_cons_succ, List.map_cons, List.flatten_cons,
        stringsTotal_cons]
      have e : ((d ++ [0]) ++ (ds.map (fun d => d ++ [0])).flatten) ++ rest =
          (d ++ [0]) ++ ((ds.map (fun d => d ++ [0])).flatten ++ rest) := by
        simp [List.append_assoc]
      rw [e]
      rw [subarr_congr (d ++ [0]) ((ds.map (fun d => d ++ [0])).flatten ++ rest)
        (stringsTotal (ds.take g2)) (stringsTotal (ds.take g2) + (ds.getD g2 []).length)
        _ _ (by simp only [List.length_append, List.length_singleton])
        (by simp only [List.length_append, List.length_singleton]; ring)]
      exact ih g2 rest (by simpa using h)

theorem flatten_const_getD {α : Type} (w : Nat) :
    ∀ (L : List (List α)) (i f : Nat), (∀ l ∈ L, l.length = w) → i < L.length → f < w →
      ∀ (d : α), (L.flatten).getD (i * w + f) d = (L.getD i []).getD f d := by
  intro L
  induction L with
  | nil => intro i f h hi hf d; simp at hi
  | cons l L ih =>
    intro i f h hi hf d
    cases i with
    | zero =>
      simp only [List.flatten_cons, Nat.zero_mul, Nat.zero_add, List.getD_cons_zero]
      rw [List.getD_append _ _ _ _ (by rw [h l (by simp)]; exact hf)]
    | succ i2 =>
      simp only [List.flatten_cons, List.getD_cons_succ]
      rw [show (i2 + 1) * w + f = l.length + (i2 * w + f) by rw [h l (by simp)]; ring]
      rw [getD_append_right_off]
      exact ih i2 f (fun x hx => h x (by simp [hx])) (by simpa using hi) hf d

theorem recordViews_getD (ss : Nat) (sos : List StringPointer) (i f : Nat)
    (hf : f < spmOf ss) :
    (recordViews ss sos i).getD f default = sos.getD (i * spmOf ss + f) default := by
  unfold recordViews
  rw [List.getD_eq_getElem?_getD, List.getD_eq_getElem?_getD, List.getElem?_take,
    if_pos hf, List.getElem?_drop]

theorem parseCompiledModule_append_right (pre rest : Buf) (k ss : Nat) :
    parseCompiledModule (pre ++ rest) (pre.length + k) ss = parseCompiledModule rest k ss := by
  unfold parseCompiledModule readU8
  by_cases h : ss = SIZEOF_MODULE_NEW
  · rw [if_pos h, if_pos h]
    rw [parseStringPointer_append_right,
      show pre.length + k + 8 = pre.length + (k + 8) by ring, parseStringPointer_append_right,
      show pre.length + k + 16 = pre.length + (k + 16) by ring, parseStringPointer_append_right,
      show pre.length + k + 24 = pre.length + (k + 24) by ring, parseStringPointer_append_right,
      show pre.length + k + 32 = pre.length + (k + 32) by ring, parseStringPointer_append_right,
      show pre.length + k + 40 = pre.length + (k + 40) by ring, parseStringPointer_append_right,
      show pre.length + k + 48 = pre.length + (k + 48) by ring, getD_append_right_off,
      show pre.length + k + 49 = pre.length + (k + 49) by ring, getD_append_right_off,
      show pre.length + k + 50 = pre.length + (k + 50) by ring, getD_append_right_off,
      show pre.length + k + 51 = pre.length + (k + 51) by ring, getD_append_right_off]
  · rw [if_neg h, if_neg h]
    rw [parseStringPointer_append_right,
      show pre.length + k + 8 = pre.length + (k + 8) by ring, parseStringPointer_append_right,
      show pre.length + k + 16 = pre.length + (k + 16) by ring, parseStringPointer_append_right,
      show pre.length + k + 24 = pre.length + (k + 24) by ring, parseStringPointer_append_right,
      show pre.length + k + 32 = pre.length + (k + 32) by ring, getD_append_right_off,
      show pre.length + k + 33 = pre.length + (k + 33) by ring, getD_append_right_off,
      show pre.length + k + 34 = pre.length + (k + 34) by ring, getD_append_right_off,
      show pre.length + k + 35 = pre.length + (k + 35) by ring, getD_append_right_off]

theorem getD_map_lt {α β : Type} (f : α → β) (l : List α) (i : Nat) (hi : i < l.length)
    (d : β) (d2 : α) : (l.map f).getD i d = f (l.getD i d2) := by
  rw [List.getD_eq_getElem?_getD, List.getElem?_map, List.getD_eq_getElem?_getD,
    List.getElem?_eq_getElem hi]
  simp

theorem stringsTotal_append (l m : List Buf) :
    stringsTotal (l ++ m) = stringsTotal l + stringsTotal m := by
  unfold stringsTotal
  rw [List.map_append, List.sum_append]

theorem stringsTotal_split (ds : List Buf) (g : Nat) (hg : g < ds.length) :
    stringsTotal ds =
      stringsTotal (ds.take g) +
        ((ds.getD g []).length + 1 + stringsTotal (ds.drop (g + 1))) := by
  conv_lhs => rw [← List.take_append_drop g ds]
  rw [stringsTotal_append, List.drop_eq_getElem_cons hg, stringsTotal_cons]
  rw [List.getD_eq_getElem?_getD, List.getElem?_eq_getElem hg]
  simp

theorem flatten_take_len (recs : List Buf) (ss : Nat) :
    ∀ i, (∀ r ∈ recs, r.length = ss) → i ≤ recs.length →
      ((recs.take i).flatten).length = i * ss := by
  induction recs with
  | nil =>
    intro i h hi
    have : i = 0 := by simpa using hi
    subst this
    simp
  | cons r recs ih =>
    intro i h hi
    cases i with
    | zero => simp
    | succ i2 =>
      simp only [List.take_succ_cons, List.flatten_cons, List.length_append,
        h r (by simp)]
      rw [ih i2 (fun x hx => h x (by simp [hx])) (by simpa using hi)]
      ring

theorem collectMeta_nosub (bunData : Buf) (off : BunOffsets) (sub : Option Buf) (tn : Buf)
    (tt : FieldKind) (ss : Nat)
    (h : sub = none ∨ ∀ m ∈ decodeModules bunData off ss,
      getStringPointerContent bunData m.name ≠ tn) :
    collectMeta bunData off sub tn tt ss = collectMeta bunData off none tn tt ss := by
  rcases h with h | h
  · rw [h]
  · unfold collectMeta
    apply List.map_congr_left
    intro m hm
    cases sub with
    | none => rfl
    | some nb =>
      unfold metaOf
      simp only
      rw [if_neg (h m hm)]

theorem strings_fold_length (l : List (StringPointer × Buf)) :
    ∀ b : Buf,
      (l.foldl (fun b p => writeBytes b p.1.offset (p.2 ++ [0])) b).length = b.length := by
  induction l with
  | nil => intro b; rfl
  | cons x l ih =>
    intro b
    rw [List.foldl_cons, ih, writeBytes_length]

theorem table_fold_length (ss : Nat) (sos : List StringPointer) (metas : List ModuleMeta)
    (base : Nat) (l : List Nat) :
    ∀ b : Buf,
      (l.foldl (fun b i => writeBytes b (base + i * ss)
        (encodeModuleRecord (recordViews ss sos i) (metas.getD i default))) b).length =
      b.length := by
  induction l with
  | nil => intro b; rfl
  | cons x l ih =>
    intro b
    rw [List.foldl_cons, ih, writeBytes_length]

theorem rebuildBunData_length (bunData : Buf) (off : BunOffsets) (sub : Option Buf) (tn : Buf)
    (tt : FieldKind) (ss : Nat) :
    (rebuildBunData bunData off sub tn tt ss).length =
      (rebuildState bunData off sub tn tt ss).total := by
  unfold rebuildBunData rebuildWrite
  rw [writeBytes_length, writeBytes_length, table_fold_length, writeBytes_length,
    strings_fold_length, List.length_replicate]

theorem rebuilt_views_len (bunData : Buf) (off : BunOffsets) (sub : Option Buf) (tn : Buf)
    (tt : FieldKind) (ss : Nat) :
    (rebuildState bunData off sub tn tt ss).stringOffsets.length =
      (rebuildState bunData off sub tn tt ss).metas.length * spmOf ss := by
  rw [rebuildState_stringOffsets, layoutOffsetsFrom_length, rebuildState_stringsData,
    rebuildState_metas]
  exact stringsData_length _ _

theorem rebuilt_record_length (bunData : Buf) (off : BunOffsets) (sub : Option Buf) (tn : Buf)
    (tt : FieldKind) (ss : Nat) (hss : ss = 36 ∨ ss = 52) (i : Nat)
    (hi : i < (rebuildState bunData off sub tn tt ss).metas.length) :
    (encodeModuleRecord (recordViews ss (rebuildState bunData off sub tn tt ss).stringOffsets i)
      ((rebuildState bunData off sub tn tt ss).metas.getD i default)).length = ss := by
  rw [encodeModuleRecord_length,
    recordViews_length (by rw [rebuilt_views_len]; exact Nat.mul_le_mul_right _ (by omega)),
    spm_record ss hss]

/-- The instantiated structure theorem for `rebuildBunData`. -/
theorem rebuild_structure (bunData : Buf) (off : BunOffsets) (sub : Option Buf) (tn : Buf)
    (tt : FieldKind) (ss : Nat) (hss : ss = 36 ∨ ss = 52) :
    rebuildBunData bunData off sub tn tt ss =
      ((rebuildState bunData off sub tn tt ss).stringsData.map (fun d => d ++ [0])).flatten ++
      (((List.range (rebuildState bunData off sub tn tt ss).metas.length).map (fun i =>
        encodeModuleRecord (recordViews ss (rebuildState bunData off sub tn tt ss).stringOffsets i)
          ((rebuildState bunData off sub tn tt ss).metas.getD i default))).flatten ++
      (((rebuildState bunData off sub tn tt ss).argsBytes ++ [0]) ++
      (encodeOffsets (rebuildState bunData off sub tn tt ss).offsetsOffset
        (rebuildState bunData off sub tn tt ss).modulesListOffset
        (rebuildState bunData off sub tn tt ss).modulesListSize
        (rebuildState bunData off sub tn tt ss).entryPointId
        (rebuildState bunData off sub tn tt ss).argsOffset
        (rebuildState bunData off sub tn tt ss).argsBytes.length
        (rebuildState bunData off sub tn tt ss).flags ++
      BUN_TRAILER))) := by
  apply rebuildWrite_structure _ ss rfl rfl rfl rfl rfl rfl rfl
  · rw [rebuildState_stringsData, rebuildState_metas]
    exact stringsData_length _ _
  · exact spm_record ss hss

theorem rebuilt_T_length (bunData : Buf) (off : BunOffsets) (sub : Option Buf) (tn : Buf)
    (tt : FieldKind) (ss : Nat) (hss : ss = 36 ∨ ss = 52) :
    (((List.range (rebuildState bunData off sub tn tt ss).metas.length).map (fun i =>
      encodeModuleRecord (recordViews ss (rebuildState bunData off sub tn tt ss).stringOffsets i)
        ((rebuildState bunData off sub tn tt ss).metas.getD i default))).flatten).length =
      (rebuildState bunData off sub tn tt ss).metas.length * ss := by
  rw [List.length_flatten, List.range_eq_range']
  exact records_sum _ ss _ 0
    (fun i h1 h2 => rebuilt_record_length bunData off sub tn tt ss hss i (by omega))

theorem rebuilt_S_length (bunData : Buf) (off : BunOffsets) (sub : Option Buf) (tn : Buf)
    (tt : FieldKind) (ss : Nat) :
    (((rebuildState bunData off sub tn tt ss).stringsData.map (fun d => d ++ [0])).flatten).length =
      stringsTotal (rebuildState bunData off sub tn tt ss).stringsData :=
  flatten_terminated_length _

theorem stringsTotal_flatten (metas : List ModuleMeta) (ss : Nat) :
    stringsTotal ((metas.map (moduleFields ss)).flatten) =
      (metas.map (fun m => ((moduleFields ss m).map (fun f => f.length + 1)).sum)).sum := by
  unfold stringsTotal
  induction metas with
  | nil => rfl
  | cons m ms ih =>
    simp only [List.map_cons, List.flatten_cons, List.map_append, List.sum_append,
      List.sum_cons, ih]

/-! ### Helper lemmas for the module locator (C7) -/

theorem getLast?_cons_elim {α : Type} (a : α) (l : List α) :
    (a :: l).getLast? = match l.getLast? with
      | some x => some x
      | none => some a := by
  cases l with
  | nil => simp
  | cons b t =>
    rw [List.getLast?_cons_cons]
    cases h : (b :: t).getLast? with
    | none => exact absurd (List.getLast?_eq_none_iff.mp h) (by simp)
    | some x => rfl

theorem extractLoop_eq_aux (bunData : Buf) :
    ∀ (ms : List CompiledModule) (fb : Option LocResult),
      (∀ r, fb = some r → 0 < r.content.length) →
      extractLoop bunData fb ms =
        (match (List.range ms.length).find? (stopHitFrom bunData fb.isNone ms) with
        | some i =>
          if contentsHit bunData (ms.getD i default) = true then
            some (contentsRes bunData (ms.getD i default))
          else some (bytecodeRes bunData (ms.getD i default))
        | none =>
          match (ms.filter (nameFallbackHit bunData)).getLast? with
          | some x => some (contentsRes bunData x)
          | none => fb) := by
  intro ms
  induction ms with
  | nil => intro fb hfb; simp [extractLoop]
  | cons m ms ih =>
    intro fb hfb
    rw [extractLoop]
    by_cases hC : contentsHit bunData m = true
    · rw [if_pos hC]
      have hp0 : stopHitFrom bunData fb.isNone (m :: ms) 0 = true := by
        simp [stopHitFrom, List.getD_cons_zero, hC]
      rw [List.length_cons, List.range_succ_eq_map, List.find?_cons_of_pos _ hp0]
      simp [List.getD_cons_zero, hC]
    · rw [if_neg hC]
      have hfb'inv : ∀ r,
          (if nameFallbackHit bunData m then some (contentsRes bunData m) else fb) = some r →
          0 < r.content.length := by
        intro r hr
        by_cases hn : nameFallbackHit bunData m = true
        · rw [if_pos hn] at hr
          cases hr
          have h2 := ((Bool.and_eq_true _ _).mp hn).2
          simpa [contentsRes] using of_decide_eq_true h2
        · rw [if_neg (by simpa using hn)] at hr
          exact hfb r hr
      have hfb'none :
          (if nameFallbackHit bunData m then some (contentsRes bunData m) else fb).isNone =
            (fb.isNone && !(nameFallbackHit bunData m)) := by
        by_cases hn : nameFallbackHit bunData m = true <;> simp [hn]
      have habsent :
          fallbackAbsent (if nameFallbackHit bunData m then some (contentsRes bunData m) else fb) =
            (if nameFallbackHit bunData m then some (contentsRes bunData m) else fb).isNone := by
        cases h : (if nameFallbackHit bunData m then some (contentsRes bunData m) else fb) with
        | none => rfl
        | some r =>
          have hpos := hfb'inv r h
          simp only [fallbackAbsent, Option.isNone_some, beq_eq_false_iff_ne]
          omega
      by_cases hB : (bytecodeHit bunData m &&
          fallbackAbsent (if nameFallbackHit bunData m then some (contentsRes bunData m) else fb)) = true
      · rw [if_pos hB]
        obtain ⟨hB1, hB2⟩ := (Bool.and_eq_true _ _).mp hB
        rw [habsent, hfb'none] at hB2
        obtain ⟨hfbN, hnfb⟩ := (Bool.and_eq_true _ _).mp hB2
        have hp0 : stopHitFrom bunData fb.isNone (m :: ms) 0 = true := by
          simp only [stopHitFrom, List.getD_cons_zero, List.take_succ_cons, List.take_zero,
            List.any_cons, List.any_nil, Bool.or_false]
          rw [hB1, hfbN]
          simp only [Bool.not_eq_true'] at hnfb
          simp [hnfb]
        rw [List.length_cons, List.range_succ_eq_map, List.find?_cons_of_pos _ hp0]
        simp only [List.getD_cons_zero]
        rw [if_neg (by simpa using hC)]
      · rw [if_neg hB]
        rw [ih _ hfb'inv]
        have hp0 : stopHitFrom bunData fb.isNone (m :: ms) 0 = false := by
          simp only [stopHitFrom, List.getD_cons_zero, List.take_succ_cons, List.take_zero,
            List.any_cons, List.any_nil, Bool.or_false]
          rw [habsent, hfb'none] at hB
          have hCf : contentsHit bunData m = false := by simpa using hC
          rw [hCf]
          simp only [Bool.false_or]
          cases hbc : bytecodeHit bunData m <;> cases hfn : fb.isNone <;>
            cases hnm : nameFallbackHit bunData m <;> simp_all
        have hshift : (stopHitFrom bunData fb.isNone (m :: ms)) ∘ Nat.succ =
            stopHitFrom bunData
              (if nameFallbackHit bunData m then some (contentsRes bunData m) else fb).isNone ms := by
          funext i
          simp only [Function.comp_apply, stopHitFrom, List.getD_cons_succ,
            List.take_succ_cons, List.any_cons, hfb'none]
          cases bytecodeHit bunData (ms.getD i default) <;> cases fb.isNone <;>
            cases nameFallbackHit bunData m <;>
            cases (ms.take (i + 1)).any (nameFallbackHit bunData) <;> simp
        rw [List.length_cons, List.range_succ_eq_map,
          List.find?_cons_of_neg _ (by simp [hp0]), List.find?_map, hshift]
        cases hfind : (List.range ms.length).find?
            (stopHitFrom bunData
              (if nameFallbackHit bunData m then some (contentsRes bunData m) else fb).isNone ms) with
        | some i =>
          simp [List.getD_cons_succ]
        | none =>
          simp only [Option.map_none']
          rw [List.filter_cons]
          by_cases hn : nameFallbackHit bunData m = true
          · simp only [hn, if_true]
            rw [getLast?_cons_elim]
            cases hlast : (ms.filter (nameFallbackHit bunData)).getLast? with
            | some x => rfl
            | none => rfl
          · have hnf : nameFallbackHit bunData m = false := by simpa using hn
            simp only [hnf, Bool.false_eq_true, if_false]

/-- Counterexample to C7: in a two-record table where the first record's
`bytecode` contains the marker (no fallback recorded yet) and the second
record's `contents` contains the marker, the locator stops at the first
record with a bytecode result, not at the first contents-marker module
as the claim states. -/
theorem claim_C7_counterexample :
    contentsHit c7data c7m1 = true ∧
    contentsHit c7data c7m0 = false ∧
    extractLoop c7data none [c7m0, c7m1] = some (bytecodeRes c7data c7m0) ∧
    extractLoop c7data none [c7m0, c7m1] ≠ some (contentsRes c7data c7m1) := by
  decide

/-- C7 amended: the locator scans records in order and stops at the
first position where either the record's `contents` contains the marker
(returned with type `contents`), or its `bytecode` contains the marker
while no record so far (itself included) matches the claude name pattern
with nonempty contents (returned with type `bytecode`); if the scan
never stops, the last name-pattern fallback's contents are returned, and
a not-found result otherwise. -/
theorem claim_C7 (bunData : Buf) (off : BunOffsets) (ss : Nat) :
    extractClaudeJsFromData bunData off ss =
      locateSpec bunData (decodeModules bunData off ss) := by
  unfold extractClaudeJsFromData
  rw [extractLoop_eq_aux bunData _ none (by intro r hr; cases hr)]
  unfold locateSpec stopHit
  simp only [Option.isNone_none]
  cases hfind : (List.range (decodeModules bunData off ss).length).find?
      (stopHitFrom bunData true (decodeModules bunData off ss)) with
  | some i => rfl
  | none =>
    cases hlast : ((decodeModules bunData off ss).filter (nameFallbackHit bunData)).getLast? with
    | some x => simp
    | none => simp

/-! ### C1: layout conservation of the rebuilt buffer -/

/-- C1: the rebuilt buffer's length equals the sum over all modules of
every string field's byte length plus one terminator per field, plus
moduleCount times the record size, plus the compile-args length plus one
terminator, plus the 32-byte offsets header, plus the trailer length. -/
theorem claim_C1 (bunData : Buf) (off : BunOffsets) (sub : Option Buf) (tn : Buf)
    (tt : FieldKind) (ss : Nat) (hss : ss = 36 ∨ ss = 52) :
    (rebuildBunData bunData off sub tn tt ss).length =
      ((collectMeta bunData off sub tn tt ss).map (fun m =>
        ((moduleFields ss m).map (fun f => f.length + 1)).sum)).sum +
      (collectMeta bunData off sub tn tt ss).length * ss +
      ((getStringPointerContent bunData off.compileExecArgvPtr).length + 1) +
      SIZEOF_OFFSETS + BUN_TRAILER.length := by
  rw [rebuildBunData_length]
  have htot : (rebuildState bunData off sub tn tt ss).total =
      stringsTotal (((collectMeta bunData off sub tn tt ss).map (moduleFields ss)).flatten) +
        (collectMeta bunData off sub tn tt ss).length * ss +
        ((getStringPointerContent bunData off.compileExecArgvPtr).length + 1) + 48 := by
    rw [rebuildState_total, rebuildState_oO, rebuildState_argsOffset, rebuildState_mlo,
      rebuildState_mls, rebuildState_args, rebuildState_stringsData, rebuildState_metas]
    ring
  rw [htot, stringsTotal_flatten]
  rw [show SIZEOF_OFFSETS = 32 from rfl, show BUN_TRAILER.length = 16 from rfl]

/-- Witness for C1 at a concrete (empty) archive. -/
theorem claim_C1_witness :
    (rebuildBunData [] w0off none [] FieldKind.contents 52).length =
      ((collectMeta [] w0off none [] FieldKind.contents 52).map (fun m =>
        ((moduleFields 52 m).map (fun f => f.length + 1)).sum)).sum +
      (collectMeta [] w0off none [] FieldKind.contents 52).length * 52 +
      ((getStringPointerContent [] w0off.compileExecArgvPtr).length + 1) +
      SIZEOF_OFFSETS + BUN_TRAILER.length :=
  claim_C1 [] w0off none [] FieldKind.contents 52 (Or.inr rfl)

/-! ### C9: the totalByteCount field of the rebuilt header -/

/-- Counterexample to C9: for the rebuilt empty archive the header's
totalByteCount field holds 1 (the data-region size: zero string bytes,
zero table bytes, compile-args terminator), not the claimed value 49 that
additionally counts the 32-byte offsets header and the 16-byte trailer. -/
theorem claim_C9_counterexample :
    parseBunDataBlob (rebuildBunData [] w0off none [] FieldKind.contents 52) =
      .ok ⟨⟨1, ⟨0, 0⟩, 0, ⟨0, 0⟩, 0⟩,
        rebuildBunData [] w0off none [] FieldKind.contents 52, 52⟩ ∧
    (1 : Nat) ≠ 0 + 0 * 52 + (0 + 1) + 32 + 16 := by
  constructor
  · decide
  · decide

/-- C9 amended: the totalByteCount field written by the rebuilder equals
the sum of all string-field byte lengths plus one terminator each, plus
the module table's byte length, plus the compile-args length plus
terminator — without the offsets-header and trailer sizes (it is the
offset at which the offsets header begins). -/
theorem claim_C9 (bunData : Buf) (off : BunOffsets) (sub : Option Buf) (tn : Buf)
    (tt : FieldKind) (ss : Nat) (hss : ss = 36 ∨ ss = 52)
    (hbound : (rebuildState bunData off sub tn tt ss).offsetsOffset < 2 ^ 64) :
    readU64 (rebuildBunData bunData off sub tn tt ss)
        ((rebuildBunData bunData off sub tn tt ss).length - SIZEOF_OFFSETS -
          BUN_TRAILER.length) =
      ((collectMeta bunData off sub tn tt ss).map (fun m =>
        ((moduleFields ss m).map (fun f => f.length + 1)).sum)).sum +
      (collectMeta bunData off sub tn tt ss).length * ss +
      ((getStringPointerContent bunData off.compileExecArgvPtr).length + 1) := by
  rw [rebuildBunData_length]
  have hpos : (rebuildState bunData off sub tn tt ss).total - SIZEOF_OFFSETS -
      BUN_TRAILER.length = (rebuildState bunData off sub tn tt ss).offsetsOffset := by
    rw [rebuildState_total, show SIZEOF_OFFSETS = 32 from rfl,
      show BUN_TRAILER.length = 16 from rfl]
    omega
  rw [hpos]
  conv_lhs => rw [rebuild_structure bunData off sub tn tt ss hss]
  have e : ((rebuildState bunData off sub tn tt ss).stringsData.map
        (fun d => d ++ [0])).flatten ++
      (((List.range (rebuildState bunData off sub tn tt ss).metas.length).map (fun i =>
        encodeModuleRecord (recordViews ss (rebuildState bunData off sub tn tt ss).stringOffsets i)
          ((rebuildState bunData off sub tn tt ss).metas.getD i default))).flatten ++
      (((rebuildState bunData off sub tn tt ss).argsBytes ++ [0]) ++
      (encodeOffsets (rebuildState bunData off sub tn tt ss).offsetsOffset
        (rebuildState bunData off sub tn tt ss).modulesListOffset
        (rebuildState bunData off sub tn tt ss).modulesListSize
        (rebuildState bunData off sub tn tt ss).entryPointId
        (rebuildState bunData off sub tn tt ss).argsOffset
        (rebuildState bunData off sub tn tt ss).argsBytes.length
        (rebuildState bunData off sub tn tt ss).flags ++
      BUN_TRAILER))) =
      (((rebuildState bunData off sub tn tt ss).stringsData.map
        (fun d => d ++ [0])).flatten ++
      (((List.range (rebuildState bunData off sub tn tt ss).metas.length).map (fun i =>
        encodeModuleRecord (recordViews ss (rebuildState bunData off sub tn tt ss).stringOffsets i)
          ((rebuildState bunData off sub tn tt ss).metas.getD i default))).flatten ++
      ((rebuildState bunData off sub tn tt ss).argsBytes ++ [0]))) ++
      (encodeOffsets (rebuildState bunData off sub tn tt ss).offsetsOffset
        (rebuildState bunData off sub tn tt ss).modulesListOffset
        (rebuildState bunData off sub tn tt ss).modulesListSize
        (rebuildState bunData off sub tn tt ss).entryPointId
        (rebuildState bunData off sub tn tt ss).argsOffset
        (rebuildState bunData off sub tn tt ss).argsBytes.length
        (rebuildState bunData off sub tn tt ss).flags ++
      BUN_TRAILER) := by
    simp [List.append_assoc]
  rw [e]
  rw [readU64_encodeOffsets_head _ _ _ _ _ _ _ _ _ _ (by
    simp only [List.length_append, rebuilt_S_length,
      rebuilt_T_length bunData off sub tn tt ss hss, List.length_cons, List.length_nil,
      rebuildState_oO, rebuildState_argsOffset, rebuildState_mlo, rebuildState_mls]
    ring)]
  rw [Nat.mod_eq_of_lt hbound]
  rw [rebuildState_oO, rebuildState_argsOffset, rebuildState_mlo, rebuildState_mls,
    rebuildState_args, rebuildState_stringsData, rebuildState_metas, stringsTotal_flatten]
  ring

/-- Witness for the amended C9 at a concrete (empty) archive. -/
theorem claim_C9_witness :
    readU64 (rebuildBunData [] w0off none [] FieldKind.contents 52)
        ((rebuildBunData [] w0off none [] FieldKind.contents 52).length - SIZEOF_OFFSETS -
          BUN_TRAILER.length) =
      ((collectMeta [] w0off none [] FieldKind.contents 52).map (fun m =>
        ((moduleFields 52 m).map (fun f => f.length + 1)).sum)).sum +
      (collectMeta [] w0off none [] FieldKind.contents 52).length * 52 +
      ((getStringPointerContent [] w0off.compileExecArgvPtr).length + 1) :=
  claim_C9 [] w0off none [] FieldKind.contents 52 (Or.inr rfl) (by decide)

/-! ### C2: the offset shift law for the rebuilt module table -/

theorem take_decomp_le {α : Type} (A B : List α) (x : α) (g : Nat) (hg : g ≤ A.length) :
    (A ++ (x :: B)).take g = A.take g := by
  rw [List.take_append_eq_append_take, show g - A.length = 0 by omega]
  simp

theorem take_decomp_gt {α : Type} (A B : List α) (x : α) (t : Nat) :
    (A ++ (x :: B)).take (A.length + (1 + t)) = A ++ (x :: B.take t) := by
  rw [List.take_append_eq_append_take, List.take_of_length_le (by omega),
    show A.length + (1 + t) - A.length = t + 1 by omega, List.take_succ_cons]

theorem getD_decomp_gt {α : Type} (A B : List α) (x : α) (t : Nat) (d : α) :
    (A ++ (x :: B)).getD (A.length + (1 + t)) d = B.getD t d := by
  rw [getD_append_right_off, show 1 + t = t + 1 by omega, List.getD_cons_succ]

theorem stringsTotal_decomp (A B : List Buf) (x : Buf) :
    stringsTotal (A ++ (x :: B)) = stringsTotal A + (x.length + 1 + stringsTotal B) := by
  rw [stringsTotal_append, stringsTotal_cons]

theorem collectMeta_length (bunData : Buf) (off : BunOffsets) (s : Option Buf) (tn : Buf)
    (tt : FieldKind) (ss : Nat) :
    (collectMeta bunData off s tn tt ss).length = (decodeModules bunData off ss).length := by
  unfold collectMeta
  rw [List.length_map]

theorem rebuiltTableViews_getD (bunData : Buf) (off : BunOffsets) (s : Option Buf) (tn : Buf)
    (tt : FieldKind) (ss : Nat) (j : Nat) (hj : j < (decodeModules bunData off ss).length) :
    (rebuiltTableViews bunData off s tn tt ss).getD j [] =
      recordViews ss
        (layoutOffsetsFrom 0
          (((collectMeta bunData off s tn tt ss).map (moduleFields ss)).flatten)) j := by
  simp only [rebuiltTableViews, rebuildState_metas, rebuildState_stringOffsets,
    rebuildState_stringsData]
  rw [getD_map_lt _ _ j (by rw [List.length_range, collectMeta_length]; exact hj) [] 0]
  congr 1
  rw [List.getD_eq_getElem?_getD, List.getElem?_range (by rw [collectMeta_length]; exact hj)]
  rfl

theorem rebuilt_view_length (bunData : Buf) (off : BunOffsets) (s : Option Buf) (tn : Buf)
    (tt : FieldKind) (ss : Nat) (j : Nat) (hj : j < (decodeModules bunData off ss).length) :
    ((rebuiltTableViews bunData off s tn tt ss).getD j []).length = spmOf ss := by
  rw [rebuiltTableViews_getD bunData off s tn tt ss j hj]
  apply recordViews_length
  rw [layoutOffsetsFrom_length, stringsData_length, collectMeta_length]
  exact Nat.mul_le_mul_right _ (by omega)

theorem rebuilt_view_getD (bunData : Buf) (off : BunOffsets) (s : Option Buf) (tn : Buf)
    (tt : FieldKind) (ss : Nat) (sd : List Buf)
    (hsd : ((collectMeta bunData off s tn tt ss).map (moduleFields ss)).flatten = sd)
    (j f : Nat) (hj : j < (decodeModules bunData off ss).length) (hf : f < spmOf ss) :
    ((rebuiltTableViews bunData off s tn tt ss).getD j []).getD f default =
      ⟨stringsTotal (sd.take (j * spmOf ss + f)),
        (sd.getD (j * spmOf ss + f) []).length⟩ := by
  have hlen : sd.length = (decodeModules bunData off ss).length * spmOf ss := by
    rw [← hsd, stringsData_length, collectMeta_length]
  rw [rebuiltTableViews_getD bunData off s tn tt ss j hj, recordViews_getD _ _ _ _ hf, hsd]
  have hb : j * spmOf ss + f < sd.length := by
    have h1 : (j + 1) * spmOf ss ≤ (decodeModules bunData off ss).length * spmOf ss :=
      Nat.mul_le_mul_right _ (by omega)
    have h2 : (j + 1) * spmOf ss = j * spmOf ss + spmOf ss := by ring
    omega
  rw [layoutOffsetsFrom_getD sd 0 _ hb, Nat.zero_add]

theorem collect_decomp (bunData : Buf) (off : BunOffsets) (sub tn : Buf) (tt : FieldKind)
    (ss : Nat) (k : Nat) (hk : k < (decodeModules bunData off ss).length)
    (hmatch : getStringPointerContent bunData
      ((decodeModules bunData off ss).getD k default).name = tn)
    (huniq : ∀ j, j < (decodeModules bunData off ss).length → j ≠ k →
      getStringPointerContent bunData
        ((decodeModules bunData off ss).getD j default).name ≠ tn) :
    ∃ A B : List Buf,
      A.length = k * spmOf ss + (if tt = FieldKind.bytecode then 3 else 1) ∧
      A.length + 1 + B.length = (decodeModules bunData off ss).length * spmOf ss ∧
      ((collectMeta bunData off (some sub) tn tt ss).map (moduleFields ss)).flatten =
        A ++ (sub :: B) ∧
      ((collectMeta bunData off none tn tt ss).map (moduleFields ss)).flatten =
        A ++ ((if tt = FieldKind.bytecode then
          getStringPointerContent bunData
            ((decodeModules bunData off ss).getD k default).bytecode
        else
          getStringPointerContent bunData
            ((decodeModules bunData off ss).getD k default).contents) :: B) := by
  have hkel : (decodeModules bunData off ss).getD k default =
      (decodeModules bunData off ss)[k] := List.getD_eq_getElem _ _ hk
  have hsplit : decodeModules bunData off ss =
      (decodeModules bunData off ss).take k ++
        ((decodeModules bunData off ss).getD k default ::
          (decodeModules bunData off ss).drop (k + 1)) := by
    rw [hkel]
    conv_lhs => rw [← List.take_append_drop k (decodeModules bunData off ss)]
    congr 1
    exact List.drop_eq_getElem_cons hk
  have htake : ((decodeModules bunData off ss).take k).map (metaOf bunData (some sub) tn tt) =
      ((decodeModules bunData off ss).take k).map (metaOf bunData none tn tt) := by
    apply List.map_congr_left
    intro m hm
    obtain ⟨i, hi, him⟩ := List.getElem_of_mem hm
    have hik : i < k ∧ i < (decodeModules bunData off ss).length := by
      rw [List.length_take] at hi; omega
    have him3 : (decodeModules bunData off ss).getD i default = m := by
      have hq : (List.take k (decodeModules bunData off ss))[i]? =
          (decodeModules bunData off ss)[i]? := by
        rw [List.getElem?_take, if_pos hik.1]
      rw [List.getD_eq_getElem?_getD, ← hq, List.getElem?_eq_getElem hi, him]
      rfl
    have hname : getStringPointerContent bunData m.name ≠ tn := by
      have h2 := huniq i hik.2 (by omega)
      rw [him3] at h2
      exact h2
    unfold metaOf
    simp only
    rw [if_neg hname]
  have hdrop : ((decodeModules bunData off ss).drop (k + 1)).map
        (metaOf bunData (some sub) tn tt) =
      ((decodeModules bunData off ss).drop (k + 1)).map (metaOf bunData none tn tt) := by
    apply List.map_congr_left
    intro m hm
    obtain ⟨i, hi, him⟩ := List.getElem_of_mem hm
    have hlen : k + 1 + i < (decodeModules bunData off ss).length := by
      rw [List.length_drop] at hi; omega
    have him3 : (decodeModules bunData off ss).getD (k + 1 + i) default = m := by
      rw [List.getD_eq_getElem?_getD, ← List.getElem?_drop,
        List.getElem?_eq_getElem hi, him]
      rfl
    have hname : getStringPointerContent bunData m.name ≠ tn := by
      have h2 := huniq (k + 1 + i) hlen (by omega)
      rw [him3] at h2
      exact h2
    unfold metaOf
    simp only
    rw [if_neg hname]
  suffices h : ∃ fA fB : List Buf,
      fA.length = (if tt = FieldKind.bytecode then 3 else 1) ∧
      fA.length + 1 + fB.length = spmOf ss ∧
      moduleFields ss (metaOf bunData (some sub) tn tt
        ((decodeModules bunData off ss).getD k default)) = fA ++ (sub :: fB) ∧
      moduleFields ss (metaOf bunData none tn tt
        ((decodeModules bunData off ss).getD k default)) =
        fA ++ ((if tt = FieldKind.bytecode then
          getStringPointerContent bunData
            ((decodeModules bunData off ss).getD k default).bytecode
        else
          getStringPointerContent bunData
            ((decodeModules bunData off ss).getD k default).contents) :: fB) by
    obtain ⟨fA, fB, hfA, hfsum, hFSk, hFNk⟩ := h
    have hcmS : collectMeta bunData off (some sub) tn tt ss =
        (decodeModules bunData off ss).map (metaOf bunData (some sub) tn tt) := rfl
    have hcmN : collectMeta bunData off none tn tt ss =
        (decodeModules bunData off ss).map (metaOf bunData none tn tt) := rfl
    have hS : ((collectMeta bunData off (some sub) tn tt ss).map (moduleFields ss)).flatten =
        ((((decodeModules bunData off ss).take k).map
          (metaOf bunData none tn tt)).map (moduleFields ss)).flatten ++ fA ++
          (sub :: (fB ++ ((((decodeModules bunData off ss).drop (k + 1)).map
            (metaOf bunData none tn tt)).map (moduleFields ss)).flatten)) := by
      rw [hcmS]
      conv_lhs => rw [hsplit]
      rw [List.map_append, List.map_cons, List.map_append, List.map_cons,
        List.flatten_append, List.flatten_cons, htake, hdrop, hFSk]
      simp [List.append_assoc]
    have hN : ((collectMeta bunData off none tn tt ss).map (moduleFields ss)).flatten =
        ((((decodeModules bunData off ss).take k).map
          (metaOf bunData none tn tt)).map (moduleFields ss)).flatten ++ fA ++
          ((if tt = FieldKind.bytecode then
            getStringPointerContent bunData
              ((decodeModules bunData off ss).getD k default).bytecode
          else
            getStringPointerContent bunData
              ((decodeModules bunData off ss).getD k default).contents) ::
            (fB ++ ((((decodeModules bunData off ss).drop (k + 1)).map
              (metaOf bunData none tn tt)).map (moduleFields ss)).flatten)) := by
      rw [hcmN]
      conv_lhs => rw [hsplit]
      rw [List.map_append, List.map_cons, List.map_append, List.map_cons,
        List.flatten_append, List.flatten_cons, hFNk]
      simp [List.append_assoc]
    have hA : (((((decodeModules bunData off ss).take k).map
        (metaOf bunData none tn tt)).map (moduleFields ss)).flatten ++ fA).length =
        k * spmOf ss + (if tt = FieldKind.bytecode then 3 else 1) := by
      rw [List.length_append, stringsData_length, List.length_map, List.length_take]
      have hmin : min k (decodeModules bunData off ss).length = k := by omega
      rw [hmin, hfA]
    refine ⟨_, _, hA, ?_, hS, hN⟩
    have h1 := congrArg List.length hN
    rw [stringsData_length, collectMeta_length, List.length_append, List.length_cons] at h1
    omega
  rcases tt with _ | _
  · by_cases h52 : ss = SIZEOF_MODULE_NEW
    · refine ⟨[getStringPointerContent bunData
          ((decodeModules bunData off ss).getD k default).name],
        [getStringPointerContent bunData
            ((decodeModules bunData off ss).getD k default).sourcemap,
          getStringPointerContent bunData
            ((decodeModules bunData off ss).getD k default).bytecode,
          getStringPointerContent bunData
            ((decodeModules bunData off ss).getD k default).moduleInfo,
          getStringPointerContent bunData
            ((decodeModules bunData off ss).getD k default).bytecodeOriginPath],
        by simp, by simp [spmOf, h52], ?_, ?_⟩
      · unfold moduleFields metaOf
        rw [if_pos h52]
        simp only [if_pos hmatch]
        simp
      · unfold moduleFields metaOf
        rw [if_pos h52]
        simp
    · refine ⟨[getStringPointerContent bunData
          ((decodeModules bunData off ss).getD k default).name],
        [getStringPointerContent bunData
            ((decodeModules bunData off ss).getD k default).sourcemap,
          getStringPointerContent bunData
            ((decodeModules bunData off ss).getD k default).bytecode],
        by simp, by simp [spmOf, h52], ?_, ?_⟩
      · unfold moduleFields metaOf
        rw [if_neg h52]
        simp only [if_pos hmatch]
        simp
      · unfold moduleFields metaOf
        rw [if_neg h52]
        simp
  · by_cases h52 : ss = SIZEOF_MODULE_NEW
    · refine ⟨[getStringPointerContent bunData
          ((decodeModules bunData off ss).getD k default).name,
        getStringPointerContent bunData
          ((decodeModules bunData off ss).getD k default).contents,
        getStringPointerContent bunData
          ((decodeModules bunData off ss).getD k default).sourcemap],
        [getStringPointerContent bunData
            ((decodeModules bunData off ss).getD k default).moduleInfo,
          getStringPointerContent bunData
            ((decodeModules bunData off ss).getD k default).bytecodeOriginPath],
        by simp, by simp [spmOf, h52], ?_, ?_⟩
      · unfold moduleFields metaOf
        rw [if_pos h52]
        simp only [if_pos hmatch]
        simp
      · unfold moduleFields metaOf
        rw [if_pos h52]
        simp
    · refine ⟨[getStringPointerContent bunData
          ((decodeModules bunData off ss).getD k default).name,
        getStringPointerContent bunData
          ((decodeModules bunData off ss).getD k default).contents,
        getStringPointerContent bunData
          ((decodeModules bunData off ss).getD k default).sourcemap],
        [],
        by simp, by simp [spmOf, h52], ?_, ?_⟩
      · unfold moduleFields metaOf
        rw [if_neg h52]
        simp only [if_pos hmatch]
        simp
      · unfold moduleFields metaOf
        rw [if_neg h52]
        simp

/-- C2 counterexample: in `c2data` the string arena is packed in the
reverse of table order, so the canonical repack moves even the modules
ordered before the substituted one.  Module 1's name matches the target
`b`; module 0 precedes it, its original name view sits at offset 2, yet
in the rebuilt table its name view sits at offset 0 — so "every
byte-range offset of every module ordered before k is unchanged"
(relative to the original table) fails. -/
theorem claim_C2_counterexample :
    getStringPointerContent c2data ((decodeModules c2data c2off 36).getD 1 default).name =
      [98] ∧
    getStringPointerContent c2data ((decodeModules c2data c2off 36).getD 0 default).name ≠
      [98] ∧
    ((decodeModules c2data c2off 36).getD 0 default).name.offset = 2 ∧
    (((rebuiltTableViews c2data c2off (some [120, 121]) [98] FieldKind.contents
        36).getD 0 []).getD 0 default).offset = 0 := by
  decide

/-- C2 (amended): offsets are compared between the two rebuilds (with
and without the substitution), not against the original table, because
rebuilding canonically re-packs the string arena.  When module `k` is
the unique name match, every view of every module ordered before `k` is
identical in the two rebuilt tables, and for every module ordered after
`k` every view keeps its length while its offset shifts by exactly the
substitution's length delta: `offsetWith + L = offsetWithout + L'` where
`L` is the original targeted field's byte length and `L'` the
replacement's. -/
theorem claim_C2 (bunData : Buf) (off : BunOffsets) (sub tn : Buf) (tt : FieldKind)
    (ss : Nat) (k : Nat) (hk : k < (decodeModules bunData off ss).length)
    (hmatch : getStringPointerContent bunData
      ((decodeModules bunData off ss).getD k default).name = tn)
    (huniq : ∀ j, j < (decodeModules bunData off ss).length → j ≠ k →
      getStringPointerContent bunData
        ((decodeModules bunData off ss).getD j default).name ≠ tn) :
    (∀ j, j < k →
      (rebuiltTableViews bunData off (some sub) tn tt ss).getD j [] =
        (rebuiltTableViews bunData off none tn tt ss).getD j []) ∧
    (∀ j, k < j → j < (decodeModules bunData off ss).length → ∀ f, f < spmOf ss →
      (((rebuiltTableViews bunData off (some sub) tn tt ss).getD j []).getD f
            default).offset +
          (if tt = FieldKind.bytecode then
            getStringPointerContent bunData
              ((decodeModules bunData off ss).getD k default).bytecode
          else
            getStringPointerContent bunData
              ((decodeModules bunData off ss).getD k default).contents).length =
        (((rebuiltTableViews bunData off none tn tt ss).getD j []).getD f
            default).offset + sub.length ∧
      (((rebuiltTableViews bunData off (some sub) tn tt ss).getD j []).getD f
          default).length =
        (((rebuiltTableViews bunData off none tn tt ss).getD j []).getD f
          default).length) := by
  obtain ⟨A, B, hA, hsum, hS, hN⟩ := collect_decomp bunData off sub tn tt ss k hk hmatch huniq
  have h46 : spmOf ss = 4 ∨ spmOf ss = 6 := by
    unfold spmOf
    split
    · exact Or.inr rfl
    · exact Or.inl rfl
  have hfi : (if tt = FieldKind.bytecode then 3 else 1) < spmOf ss := by
    rcases h46 with h | h <;> rw [h] <;> rcases tt with _ | _ <;> simp
  constructor
  · intro j hj
    have hjn : j < (decodeModules bunData off ss).length := Nat.lt_trans hj hk
    apply List.ext_getElem
    · rw [rebuilt_view_length bunData off (some sub) tn tt ss j hjn,
        rebuilt_view_length bunData off none tn tt ss j hjn]
    · intro f h1 h2
      have hf : f < spmOf ss := by
        rw [rebuilt_view_length bunData off (some sub) tn tt ss j hjn] at h1
        exact h1
      rw [← List.getD_eq_getElem _ default h1, ← List.getD_eq_getElem _ default h2]
      rw [rebuilt_view_getD bunData off (some sub) tn tt ss _ hS j f hjn hf,
        rebuilt_view_getD bunData off none tn tt ss _ hN j f hjn hf]
      have hglt : j * spmOf ss + f < A.length := by
        have h3 : (j + 1) * spmOf ss ≤ k * spmOf ss :=
          Nat.mul_le_mul_right _ (by omega)
        have h4 : (j + 1) * spmOf ss = j * spmOf ss + spmOf ss := by ring
        omega
      rw [take_decomp_le A _ sub _ (Nat.le_of_lt hglt),
        take_decomp_le A _ _ _ (Nat.le_of_lt hglt),
        List.getD_append _ _ _ _ hglt, List.getD_append _ _ _ _ hglt]
  · intro j hjk hjn f hf
    have hAlt : A.length + 1 ≤ j * spmOf ss + f := by
      have h3 : (k + 1) * spmOf ss ≤ j * spmOf ss :=
        Nat.mul_le_mul_right _ (by omega)
      have h4 : (k + 1) * spmOf ss = k * spmOf ss + spmOf ss := by ring
      omega
    have hgrep : j * spmOf ss + f =
        A.length + (1 + (j * spmOf ss + f - A.length - 1)) := by omega
    rw [rebuilt_view_getD bunData off (some sub) tn tt ss _ hS j f hjn hf,
      rebuilt_view_getD bunData off none tn tt ss _ hN j f hjn hf,
      hgrep, take_decomp_gt, take_decomp_gt, getD_decomp_gt, getD_decomp_gt,
      stringsTotal_decomp, stringsTotal_decomp]
    dsimp only
    constructor
    · omega
    · rfl

/-- Witness for the amended C2 at the concrete two-module blob `c2data`:
the target `b` matches only module 1, the replacement is two bytes
long. -/
theorem claim_C2_witness :
    ((∀ j, j < 1 →
      (rebuiltTableViews c2data c2off (some [120, 121]) [98] FieldKind.contents 36).getD
          j [] =
        (rebuiltTableViews c2data c2off none [98] FieldKind.contents 36).getD j []) ∧
    (∀ j, 1 < j → j < (decodeModules c2data c2off 36).length → ∀ f, f < spmOf 36 →
      (((rebuiltTableViews c2data c2off (some [120, 121]) [98] FieldKind.contents
            36).getD j []).getD f default).offset +
          (if FieldKind.contents = FieldKind.bytecode then
            getStringPointerContent c2data
              ((decodeModules c2data c2off 36).getD 1 default).bytecode
          else
            getStringPointerContent c2data
              ((decodeModules c2data c2off 36).getD 1 default).contents).length =
        (((rebuiltTableViews c2data c2off none [98] FieldKind.contents 36).getD
            j []).getD f default).offset + [120, 121].length ∧
      (((rebuiltTableViews c2data c2off (some [120, 121]) [98] FieldKind.contents
          36).getD j []).getD f default).length =
        (((rebuiltTableViews c2data c2off none [98] FieldKind.contents 36).getD
          j []).getD f default).length)) :=
  claim_C2 c2data c2off [120, 121] [98] FieldKind.contents 36 1 (by decide) (by decide)
    (by decide)

/-! ### C3: fixed-capacity repacking -/

theorem writeBytes_fill_start (B d : Buf) (z : Nat) (hz : z = d.length) :
    writeBytes (List.replicate z 0 ++ B) 0 d = d ++ B := by
  subst hz
  simpa using writeBytes_fill_zeros [] B d

theorem buildSectionData_length (buf : Buf) (hs : Nat) :
    (buildSectionData buf hs).length = hs + buf.length := by
  unfold buildSectionData
  rw [writeBytes_length]
  split <;> rw [writeBytes_length, List.length_replicate]

theorem buildSectionData_closed8 (buf : Buf) :
    buildSectionData buf 8 = u64le buf.length ++ buf := by
  unfold buildSectionData
  rw [if_pos rfl,
    show (List.replicate (8 + buf.length) (0 : Nat)) =
      List.replicate 8 (0 : Nat) ++ List.replicate buf.length 0 from
      List.replicate_add 8 buf.length 0,
    writeBytes_fill_start _ _ 8 (u64le_length _).symm,
    writeBytes_fill_end (u64le buf.length) buf 8 buf.length (u64le_length _).symm rfl]

theorem buildSectionData_closed4 (buf : Buf) :
    buildSectionData buf 4 = u32le buf.length ++ buf := by
  unfold buildSectionData
  rw [if_neg (by decide),
    show (List.replicate (4 + buf.length) (0 : Nat)) =
      List.replicate 4 (0 : Nat) ++ List.replicate buf.length 0 from
      List.replicate_add 4 buf.length 0,
    writeBytes_fill_start _ _ 4 (u32le_length _).symm,
    writeBytes_fill_end (u32le buf.length) buf 4 buf.length (u32le_length _).symm rfl]

/-- C3: for both fixed-capacity repacks (Mach-O and PE, byte-identical
transformations): when the rebuilt section data (size header plus
archive) exceeds the original section size the operation fails with an
error and no bytes are produced; when it fits, it succeeds, the output
has exactly the input file's byte length, the embedded size header
(u64 or u32 according to the header size) reports the unpadded archive
length, and every section byte past the header and archive up to the
original section size is zero padding. -/
theorem claim_C3 (originalFile : Buf) (so ss0 : Nat) (buf : Buf) (hs : Nat)
    (hhs : hs = 8 ∨ hs = 4) (hin : so + ss0 ≤ originalFile.length)
    (h8 : hs = 8 → buf.length < 2 ^ 64) (h4 : hs = 4 → buf.length < 2 ^ 32) :
    (repackPE originalFile so ss0 buf hs = repackMachO originalFile so ss0 buf hs) ∧
    (ss0 < hs + buf.length →
      repackMachO originalFile so ss0 buf hs =
        .error "Patched section data is larger than original") ∧
    (hs + buf.length ≤ ss0 →
      ∃ out : Buf, repackMachO originalFile so ss0 buf hs = .ok out ∧
        out.length = originalFile.length ∧
        (hs = 8 → readU64 out so = buf.length) ∧
        (hs = 4 → readU32 out so = buf.length) ∧
        (∀ i, hs + buf.length ≤ i → i < ss0 → readU8 out (so + i) = 0)) := by
  have hpre : (originalFile.take so).length = so := by
    rw [List.length_take]
    omega
  rcases hhs with h | h <;> subst h
  · refine ⟨rfl, ?_, ?_⟩
    · intro hover
      unfold repackMachO
      rw [if_pos (by rw [buildSectionData_length]; omega)]
    · intro hfit
      unfold repackMachO
      rw [if_neg (by rw [buildSectionData_length]; omega), if_pos rfl]
      have hP : writeBytes (writeBytes (List.replicate ss0 (0 : Nat)) 0
            (buildSectionData buf 8)) 0 (u64le buf.length) =
          u64le buf.length ++ (buf ++ List.replicate (ss0 - 8 - buf.length) 0) := by
        rw [buildSectionData_closed8,
          show (List.replicate ss0 (0 : Nat)) =
            List.replicate (8 + buf.length) (0 : Nat) ++
              List.replicate (ss0 - 8 - buf.length) 0 from by
            rw [← List.replicate_add]; congr 1; omega,
          writeBytes_fill_start _ _ _ (by simp [u64le_length]), List.append_assoc,
          writeBytes_in_bounds (by
            simp only [List.length_append, u64le_length, List.length_replicate,
              Nat.zero_add]
            omega)]
        simp only [List.take_zero, List.nil_append, Nat.zero_add]
        rw [List.drop_left]
      rw [hP]
      have hout : writeBytes originalFile so
            (u64le buf.length ++ (buf ++ List.replicate (ss0 - 8 - buf.length) 0)) =
          originalFile.take so ++
            (u64le buf.length ++ (buf ++ List.replicate (ss0 - 8 - buf.length) 0)) ++
            originalFile.drop (so + ss0) := by
        rw [writeBytes_in_bounds (by
          simp only [List.length_append, u64le_length, List.length_replicate]
          omega)]
        have hix : so + (u64le buf.length ++
            (buf ++ List.replicate (ss0 - 8 - buf.length) 0)).length = so + ss0 := by
          simp only [List.length_append, u64le_length, List.length_replicate]
          omega
        rw [hix]
      refine ⟨_, rfl, ?_, ?_, ?_, ?_⟩
      · rw [writeBytes_length]
      · intro _
        have hr := readU64_append_right (originalFile.take so)
          ((u64le buf.length ++ (buf ++ List.replicate (ss0 - 8 - buf.length) 0)) ++
            originalFile.drop (so + ss0)) 0
        rw [hpre, Nat.add_zero] at hr
        rw [hout, List.append_assoc, hr, List.append_assoc, readU64_at_zero]
        exact Nat.mod_eq_of_lt (h8 rfl)
      · intro hc
        exact absurd hc (by decide)
      · intro i h1 h2
        have hr := @getD_append_right_off Nat (originalFile.take so)
          ((u64le buf.length ++ (buf ++ List.replicate (ss0 - 8 - buf.length) 0)) ++
            originalFile.drop (so + ss0)) i 0
        rw [hpre] at hr
        have hr2 := @getD_append_right_off Nat (u64le buf.length ++ buf)
          (List.replicate (ss0 - 8 - buf.length) 0 ++ originalFile.drop (so + ss0))
          (i - 8 - buf.length) 0
        have hlen2 : (u64le buf.length ++ buf).length + (i - 8 - buf.length) = i := by
          simp only [List.length_append, u64le_length]
          omega
        rw [hlen2] at hr2
        rw [hout]
        unfold readU8
        rw [List.append_assoc, hr]
        have hassoc : u64le buf.length ++ (buf ++ List.replicate (ss0 - 8 - buf.length) 0) ++
            originalFile.drop (so + ss0) =
            (u64le buf.length ++ buf) ++
              (List.replicate (ss0 - 8 - buf.length) 0 ++ originalFile.drop (so + ss0)) := by
          simp [List.append_assoc]
        rw [hassoc, hr2,
          List.getD_append _ _ _ _ (by rw [List.length_replicate]; omega)]
        exact getD_replicate_lt (by omega)
  · refine ⟨rfl, ?_, ?_⟩
    · intro hover
      unfold repackMachO
      rw [if_pos (by rw [buildSectionData_length]; omega)]
    · intro hfit
      unfold repackMachO
      rw [if_neg (by rw [buildSectionData_length]; omega), if_neg (by decide)]
      have hP : writeBytes (writeBytes (List.replicate ss0 (0 : Nat)) 0
            (buildSectionData buf 4)) 0 (u32le buf.length) =
          u32le buf.length ++ (buf ++ List.replicate (ss0 - 4 - buf.length) 0) := by
        rw [buildSectionData_closed4,
          show (List.replicate ss0 (0 : Nat)) =
            List.replicate (4 + buf.length) (0 : Nat) ++
              List.replicate (ss0 - 4 - buf.length) 0 from by
            rw [← List.replicate_add]; congr 1; omega,
          writeBytes_fill_start _ _ _ (by simp [u32le_length]), List.append_assoc,
          writeBytes_in_bounds (by
            simp only [List.length_append, u32le_length, List.length_replicate,
              Nat.zero_add]
            omega)]
        simp only [List.take_zero, List.nil_append, Nat.zero_add]
        rw [List.drop_left]
      rw [hP]
      have hout : writeBytes originalFile so
            (u32le buf.length ++ (buf ++ List.replicate (ss0 - 4 - buf.length) 0)) =
          originalFile.take so ++
            (u32le buf.length ++ (buf ++ List.replicate (ss0 - 4 - buf.length) 0)) ++
            originalFile.drop (so + ss0) := by
        rw [writeBytes_in_bounds (by
          simp only [List.length_append, u32le_length, List.length_replicate]
          omega)]
        have hix : so + (u32le buf.length ++
            (buf ++ List.replicate (ss0 - 4 - buf.length) 0)).length = so + ss0 := by
          simp only [List.length_append, u32le_length, List.length_replicate]
          omega
        rw [hix]
      refine ⟨_, rfl, ?_, ?_, ?_, ?_⟩
      · rw [writeBytes_length]
      · intro hc
        exact absurd hc (by decide)
      · intro _
        have hr := readU32_append_right (originalFile.take so)
          ((u32le buf.length ++ (buf ++ List.replicate (ss0 - 4 - buf.length) 0)) ++
            originalFile.drop (so + ss0)) 0
        rw [hpre, Nat.add_zero] at hr
        rw [hout, List.append_assoc, hr, List.append_assoc, readU32_at_zero]
        exact Nat.mod_eq_of_lt (h4 rfl)
      · intro i h1 h2
        have hr := @getD_append_right_off Nat (originalFile.take so)
          ((u32le buf.length ++ (buf ++ List.replicate (ss0 - 4 - buf.length) 0)) ++
            originalFile.drop (so + ss0)) i 0
        rw [hpre] at hr
        have hr2 := @getD_append_right_off Nat (u32le buf.length ++ buf)
          (List.replicate (ss0 - 4 - buf.length) 0 ++ originalFile.drop (so + ss0))
          (i - 4 - buf.length) 0
        have hlen2 : (u32le buf.length ++ buf).length + (i - 4 - buf.length) = i := by
          simp only [List.length_append, u32le_length]
          omega
        rw [hlen2] at hr2
        rw [hout]
        unfold readU8
        rw [List.append_assoc, hr]
        have hassoc : u32le buf.length ++ (buf ++ List.replicate (ss0 - 4 - buf.length) 0) ++
            originalFile.drop (so + ss0) =
            (u32le buf.length ++ buf) ++
              (List.replicate (ss0 - 4 - buf.length) 0 ++ originalFile.drop (so + ss0)) := by
          simp [List.append_assoc]
        rw [hassoc, hr2,
          List.getD_append _ _ _ _ (by rw [List.length_replicate]; omega)]
        exact getD_replicate_lt (by omega)

/-- Witness for C3 at a concrete 20-byte host file with a 14-byte
section holding a 3-byte archive behind an 8-byte size header. -/
theorem claim_C3_witness :
    (2 + 14 ≤ (List.replicate 20 7 : Buf).length ∧ ([1, 2, 3] : Buf).length < 2 ^ 64) ∧
    ((repackPE (List.replicate 20 7) 2 14 [1, 2, 3] 8 =
        repackMachO (List.replicate 20 7) 2 14 [1, 2, 3] 8) ∧
      (14 < 8 + ([1, 2, 3] : Buf).length →
        repackMachO (List.replicate 20 7) 2 14 [1, 2, 3] 8 =
          .error "Patched section data is larger than original") ∧
      (8 + ([1, 2, 3] : Buf).length ≤ 14 →
        ∃ out : Buf, repackMachO (List.replicate 20 7) 2 14 [1, 2, 3] 8 = .ok out ∧
          out.length = (List.replicate 20 7 : Buf).length ∧
          ((8 : Nat) = 8 → readU64 out 2 = ([1, 2, 3] : Buf).length) ∧
          ((8 : Nat) = 4 → readU32 out 2 = ([1, 2, 3] : Buf).length) ∧
          (∀ i, 8 + ([1, 2, 3] : Buf).length ≤ i → i < 14 → readU8 out (2 + i) = 0))) :=
  ⟨⟨by decide, by decide⟩,
    claim_C3 (List.replicate 20 7) 2 14 [1, 2, 3] 8 (Or.inl rfl) (by decide)
      (fun _ => by decide) (fun hc => absurd hc (by decide))⟩

/-! ### C8: the no-substitution round trip -/

theorem detect_eq (len : Nat) :
    detectModuleStructSize len = if len % 36 = 0 ∧ ¬ len % 52 = 0 then 36 else 52 := by
  unfold detectModuleStructSize
  rw [show SIZEOF_MODULE_NEW = 52 from rfl, show SIZEOF_MODULE_OLD = 36 from rfl]
  by_cases h52 : len % 52 = 0 <;> by_cases h36 : len % 36 = 0 <;> simp [h52, h36]

theorem detect_cases (len : Nat) :
    detectModuleStructSize len = 36 ∨ detectModuleStructSize len = 52 := by
  rw [detect_eq]
  split
  · exact Or.inl rfl
  · exact Or.inr rfl

theorem detect_stable (len ss : Nat) (h : detectModuleStructSize len = ss) :
    detectModuleStructSize (len / ss * ss) = ss := by
  rw [detect_eq] at h
  by_cases hc : len % 36 = 0 ∧ ¬ len % 52 = 0
  · rw [if_pos hc] at h
    subst h
    rw [Nat.div_mul_cancel (Nat.dvd_of_mod_eq_zero hc.1), detect_eq, if_pos hc]
  · rw [if_neg hc] at h
    subst h
    rw [detect_eq, if_neg (fun hx => hx.2 (Nat.mul_mod_left _ 52))]

theorem decodeModules_length (bunData : Buf) (off : BunOffsets) (ss : Nat) :
    (decodeModules bunData off ss).length =
      (getStringPointerContent bunData off.modulesPtr).length / ss := by
  unfold decodeModules
  rw [List.length_map, List.length_range]

theorem subarr_zero (b : Buf) : subarr b 0 0 = [] := by
  simp [subarr]

theorem metaOf_none_fields (bunData : Buf) (tn : Buf) (tt : FieldKind) (m : CompiledModule) :
    (metaOf bunData none tn tt m).name = getStringPointerContent bunData m.name ∧
    (metaOf bunData none tn tt m).contents = getStringPointerContent bunData m.contents ∧
    (metaOf bunData none tn tt m).sourcemap = getStringPointerContent bunData m.sourcemap ∧
    (metaOf bunData none tn tt m).bytecode = getStringPointerContent bunData m.bytecode ∧
    (metaOf bunData none tn tt m).moduleInfo =
      getStringPointerContent bunData m.moduleInfo ∧
    (metaOf bunData none tn tt m).bytecodeOriginPath =
      getStringPointerContent bunData m.bytecodeOriginPath ∧
    (metaOf bunData none tn tt m).encoding = m.encoding ∧
    (metaOf bunData none tn tt m).loader = m.loader ∧
    (metaOf bunData none tn tt m).moduleFormat = m.moduleFormat ∧
    (metaOf bunData none tn tt m).side = m.side := by
  unfold metaOf
  exact ⟨rfl, rfl, rfl, rfl, rfl, rfl, rfl, rfl, rfl, rfl⟩

theorem moduleFields_getD6 (ss : Nat) (m : ModuleMeta) (hss : ss = 36 ∨ ss = 52) :
    (moduleFields ss m).getD 0 [] = m.name ∧
    (moduleFields ss m).getD 1 [] = m.contents ∧
    (moduleFields ss m).getD 2 [] = m.sourcemap ∧
    (moduleFields ss m).getD 3 [] = m.bytecode ∧
    (ss = 52 → (moduleFields ss m).getD 4 [] = m.moduleInfo ∧
      (moduleFields ss m).getD 5 [] = m.bytecodeOriginPath) := by
  rcases hss with h | h <;> subst h <;> unfold moduleFields
  · rw [if_neg (by decide)]
    exact ⟨rfl, rfl, rfl, rfl, fun hc => absurd hc (by decide)⟩
  · rw [if_pos (by decide)]
    exact ⟨rfl, rfl, rfl, rfl, fun _ => ⟨rfl, rfl⟩⟩

theorem parseBlob_append (pre : Buf) (a b c d e f g : Nat) :
    parseBunDataBlob (pre ++ (encodeOffsets a b c d e f g ++ BUN_TRAILER)) =
      .ok ⟨⟨a % 2 ^ 64, ⟨b % 2 ^ 32, c % 2 ^ 32⟩, d % 2 ^ 32, ⟨e % 2 ^ 32, f % 2 ^ 32⟩,
          g % 2 ^ 32⟩,
        pre ++ (encodeOffsets a b c d e f g ++ BUN_TRAILER),
        detectModuleStructSize (c % 2 ^ 32)⟩ := by
  have hassoc : pre ++ (encodeOffsets a b c d e f g ++ BUN_TRAILER) =
      (pre ++ encodeOffsets a b c d e f g) ++ BUN_TRAILER := by
    simp [List.append_assoc]
  rw [hassoc]
  have hlen : ((pre ++ encodeOffsets a b c d e f g) ++ BUN_TRAILER).length =
      pre.length + 48 := by
    simp only [List.length_append, encodeOffsets_length,
      show BUN_TRAILER.length = 16 from rfl]
  unfold parseBunDataBlob
  simp only []
  rw [hlen, show List.length BUN_TRAILER = 16 from rfl, show SIZEOF_OFFSETS = 32 from rfl,
    if_neg (show ¬ (pre.length + 48 < 32 + 16) from by omega)]
  rw [show pre.length + 48 - 16 = (pre ++ encodeOffsets a b c d e f g).length from by
      simp only [List.length_append, encodeOffsets_length]
      omega,
    List.drop_left]
  rw [if_neg (show ¬ (BUN_TRAILER ≠ BUN_TRAILER) from by simp)]
  rw [show pre.length + 48 - 32 - 16 = pre.length from by omega]
  rw [subarr_concat_take (show (32 : Nat) ≤ (encodeOffsets a b c d e f g).length from by
      rw [encodeOffsets_length])]
  rw [List.take_of_length_le (by rw [encodeOffsets_length]),
    parseOffsets_encode]

theorem rebuild_structure2 (bunData : Buf) (off : BunOffsets) (sub : Option Buf) (tn : Buf)
    (tt : FieldKind) (ss : Nat) (hss : ss = 36 ∨ ss = 52) :
    rebuildBunData bunData off sub tn tt ss =
      rebuiltStrings bunData off sub tn tt ss ++
        (rebuiltTable bunData off sub tn tt ss ++
          (((rebuildState bunData off sub tn tt ss).argsBytes ++ [0]) ++
            (encodeOffsets (rebuildState bunData off sub tn tt ss).offsetsOffset
              (rebuildState bunData off sub tn tt ss).modulesListOffset
              (rebuildState bunData off sub tn tt ss).modulesListSize
              (rebuildState bunData off sub tn tt ss).entryPointId
              (rebuildState bunData off sub tn tt ss).argsOffset
              (rebuildState bunData off sub tn tt ss).argsBytes.length
              (rebuildState bunData off sub tn tt ss).flags ++ BUN_TRAILER))) :=
  rebuild_structure bunData off sub tn tt ss hss

theorem rebuiltStrings_length (bunData : Buf) (off : BunOffsets) (sub : Option Buf)
    (tn : Buf) (tt : FieldKind) (ss : Nat) :
    (rebuiltStrings bunData off sub tn tt ss).length =
      (rebuildState bunData off sub tn tt ss).modulesListOffset := by
  rw [rebuildState_mlo]
  exact rebuilt_S_length bunData off sub tn tt ss

theorem rebuiltTable_length (bunData : Buf) (off : BunOffsets) (sub : Option Buf)
    (tn : Buf) (tt : FieldKind) (ss : Nat) (hss : ss = 36 ∨ ss = 52) :
    (rebuiltTable bunData off sub tn tt ss).length =
      (rebuildState bunData off sub tn tt ss).metas.length * ss :=
  rebuilt_T_length bunData off sub tn tt ss hss

theorem rebuiltTable_eq (bunData : Buf) (off : BunOffsets) (sub : Option Buf)
    (tn : Buf) (tt : FieldKind) (ss : Nat) :
    rebuiltTable bunData off sub tn tt ss =
      ((List.range (rebuildState bunData off sub tn tt ss).metas.length).map
        (rebuiltRecord bunData off sub tn tt ss)).flatten := rfl

theorem rebuiltRecord_length (bunData : Buf) (off : BunOffsets) (sub : Option Buf)
    (tn : Buf) (tt : FieldKind) (ss : Nat) (hss : ss = 36 ∨ ss = 52) (i : Nat)
    (hi : i < (rebuildState bunData off sub tn tt ss).metas.length) :
    (rebuiltRecord bunData off sub tn tt ss i).length = ss :=
  rebuilt_record_length bunData off sub tn tt ss hss i hi

theorem rebuilt_table_slice (bunData : Buf) (off : BunOffsets) (sub : Option Buf)
    (tn : Buf) (tt : FieldKind) (ss : Nat) (hss : ss = 36 ∨ ss = 52) :
    getStringPointerContent (rebuildBunData bunData off sub tn tt ss)
      ⟨(rebuildState bunData off sub tn tt ss).modulesListOffset,
        (rebuildState bunData off sub tn tt ss).modulesListSize⟩ =
      rebuiltTable bunData off sub tn tt ss := by
  rw [rebuild_structure2 bunData off sub tn tt ss hss]
  unfold getStringPointerContent
  simp only
  rw [show rebuiltStrings bunData off sub tn tt ss ++
      (rebuiltTable bunData off sub tn tt ss ++
        (((rebuildState bunData off sub tn tt ss).argsBytes ++ [0]) ++
          (encodeOffsets (rebuildState bunData off sub tn tt ss).offsetsOffset
            (rebuildState bunData off sub tn tt ss).modulesListOffset
            (rebuildState bunData off sub tn tt ss).modulesListSize
            (rebuildState bunData off sub tn tt ss).entryPointId
            (rebuildState bunData off sub tn tt ss).argsOffset
            (rebuildState bunData off sub tn tt ss).argsBytes.length
            (rebuildState bunData off sub tn tt ss).flags ++ BUN_TRAILER))) =
      rebuiltStrings bunData off sub tn tt ss ++ rebuiltTable bunData off sub tn tt ss ++
        (((rebuildState bunData off sub tn tt ss).argsBytes ++ [0]) ++
          (encodeOffsets (rebuildState bunData off sub tn tt ss).offsetsOffset
            (rebuildState bunData off sub tn tt ss).modulesListOffset
            (rebuildState bunData off sub tn tt ss).modulesListSize
            (rebuildState bunData off sub tn tt ss).entryPointId
            (rebuildState bunData off sub tn tt ss).argsOffset
            (rebuildState bunData off sub tn tt ss).argsBytes.length
            (rebuildState bunData off sub tn tt ss).flags ++ BUN_TRAILER)) from by
    simp [List.append_assoc]]
  have hmlo : (rebuildState bunData off sub tn tt ss).modulesListOffset =
      (rebuiltStrings bunData off sub tn tt ss).length :=
    (rebuiltStrings_length bunData off sub tn tt ss).symm
  rw [hmlo, subarr_concat_take (by
    rw [rebuiltTable_length bunData off sub tn tt ss hss, rebuildState_mls])]
  rw [List.take_of_length_le (by
    rw [rebuiltTable_length bunData off sub tn tt ss hss, rebuildState_mls])]

theorem rebuilt_table_record (bunData : Buf) (off : BunOffsets) (sub : Option Buf)
    (tn : Buf) (tt : FieldKind) (ss : Nat) (hss : ss = 36 ∨ ss = 52) (i : Nat)
    (hi : i < (rebuildState bunData off sub tn tt ss).metas.length) :
    parseCompiledModule (rebuiltTable bunData off sub tn tt ss) (i * ss) ss =
      parseCompiledModule (rebuiltRecord bunData off sub tn tt ss i ++
        (((List.range (rebuildState bunData off sub tn tt ss).metas.length).map
          (rebuiltRecord bunData off sub tn tt ss)).drop (i + 1)).flatten) 0 ss := by
  have hlen : ((List.range (rebuildState bunData off sub tn tt ss).metas.length).map
      (rebuiltRecord bunData off sub tn tt ss)).length =
      (rebuildState bunData off sub tn tt ss).metas.length := by
    rw [List.length_map, List.length_range]
  have hilt : i < ((List.range (rebuildState bunData off sub tn tt ss).metas.length).map
      (rebuiltRecord bunData off sub tn tt ss)).length := by
    rw [hlen]; exact hi
  have hgetD : ((List.range (rebuildState bunData off sub tn tt ss).metas.length).map
      (rebuiltRecord bunData off sub tn tt ss)).getD i [] =
      rebuiltRecord bunData off sub tn tt ss i := by
    rw [getD_map_lt _ _ i (by rw [List.length_range]; exact hi) [] 0]
    congr 1
    rw [List.getD_eq_getElem?_getD, List.getElem?_range hi]
    rfl
  have hsplit_recs : (List.range (rebuildState bunData off sub tn tt ss).metas.length).map
      (rebuiltRecord bunData off sub tn tt ss) =
      (((List.range (rebuildState bunData off sub tn tt ss).metas.length).map
        (rebuiltRecord bunData off sub tn tt ss)).take i) ++
      ((((List.range (rebuildState bunData off sub tn tt ss).metas.length).map
        (rebuiltRecord bunData off sub tn tt ss)).getD i []) ::
      (((List.range (rebuildState bunData off sub tn tt ss).metas.length).map
        (rebuiltRecord bunData off sub tn tt ss)).drop (i + 1))) := by
    rw [List.getD_eq_getElem _ _ hilt]
    conv_lhs => rw [← List.take_append_drop i
      ((List.range (rebuildState bunData off sub tn tt ss).metas.length).map
        (rebuiltRecord bunData off sub tn tt ss))]
    congr 1
    exact List.drop_eq_getElem_cons hilt
  have hT : rebuiltTable bunData off sub tn tt ss =
      ((((List.range (rebuildState bunData off sub tn tt ss).metas.length).map
        (rebuiltRecord bunData off sub tn tt ss)).take i).flatten) ++
      (rebuiltRecord bunData off sub tn tt ss i ++
        ((((List.range (rebuildState bunData off sub tn tt ss).metas.length).map
          (rebuiltRecord bunData off sub tn tt ss)).drop (i + 1)).flatten)) := by
    rw [rebuiltTable_eq]
    conv_lhs => rw [hsplit_recs]
    rw [List.flatten_append, List.flatten_cons, hgetD]
  have hpre_len : (((((List.range (rebuildState bunData off sub tn tt ss).metas.length).map
      (rebuiltRecord bunData off sub tn tt ss)).take i)).flatten).length = i * ss := by
    apply flatten_take_len _ ss i
    · intro r hr
      obtain ⟨j, hj, hjr⟩ := List.mem_map.mp hr
      rw [← hjr]
      exact rebuiltRecord_length bunData off sub tn tt ss hss j (List.mem_range.mp hj)
    · rw [hlen]; omega
  rw [hT, show i * ss = (((((List.range
      (rebuildState bunData off sub tn tt ss).metas.length).map
      (rebuiltRecord bunData off sub tn tt ss)).take i)).flatten).length + 0 from by
    rw [hpre_len, Nat.add_zero]]
  rw [parseCompiledModule_append_right]

theorem rebuilt_sos_getD (bunData : Buf) (off : BunOffsets) (sub : Option Buf) (tn : Buf)
    (tt : FieldKind) (ss : Nat) (i f : Nat)
    (hi : i < (rebuildState bunData off sub tn tt ss).metas.length) (hf : f < spmOf ss) :
    (recordViews ss (rebuildState bunData off sub tn tt ss).stringOffsets i).getD f
        default =
      ⟨stringsTotal ((rebuildState bunData off sub tn tt ss).stringsData.take
          (i * spmOf ss + f)),
        ((rebuildState bunData off sub tn tt ss).stringsData.getD (i * spmOf ss + f)
          []).length⟩ := by
  rw [recordViews_getD _ _ _ _ hf, rebuildState_stringOffsets]
  have hb : i * spmOf ss + f <
      (rebuildState bunData off sub tn tt ss).stringsData.length := by
    rw [rebuildState_stringsData, stringsData_length]
    have hi2 : i < (collectMeta bunData off sub tn tt ss).length := by
      rw [← rebuildState_metas bunData off sub tn tt ss]
      exact hi
    have h1 : (i + 1) * spmOf ss ≤
        (collectMeta bunData off sub tn tt ss).length * spmOf ss :=
      Nat.mul_le_mul_right _ (by omega)
    have h2 : (i + 1) * spmOf ss = i * spmOf ss + spmOf ss := by ring
    omega
  rw [layoutOffsetsFrom_getD _ 0 _ hb, Nat.zero_add]

theorem rebuilt_content (bunData : Buf) (off : BunOffsets) (sub : Option Buf) (tn : Buf)
    (tt : FieldKind) (ss : Nat) (hss : ss = 36 ∨ ss = 52) (g : Nat)
    (hg : g < (rebuildState bunData off sub tn tt ss).stringsData.length) :
    getStringPointerContent (rebuildBunData bunData off sub tn tt ss)
      ⟨stringsTotal ((rebuildState bunData off sub tn tt ss).stringsData.take g),
        ((rebuildState bunData off sub tn tt ss).stringsData.getD g []).length⟩ =
      (rebuildState bunData off sub tn tt ss).stringsData.getD g [] := by
  rw [rebuild_structure2 bunData off sub tn tt ss hss]
  unfold getStringPointerContent rebuiltStrings
  simp only
  exact subarr_flatten_piece _ g _ hg

theorem rebuilt_view_bounds (bunData : Buf) (off : BunOffsets) (sub : Option Buf)
    (tn : Buf) (tt : FieldKind) (ss : Nat) (g : Nat)
    (hg : g < (rebuildState bunData off sub tn tt ss).stringsData.length) :
    stringsTotal ((rebuildState bunData off sub tn tt ss).stringsData.take g) +
        (((rebuildState bunData off sub tn tt ss).stringsData.getD g []).length + 1) ≤
      (rebuildState bunData off sub tn tt ss).total := by
  have hsplit := stringsTotal_split ((rebuildState bunData off sub tn tt ss).stringsData) g hg
  have hmlo := rebuildState_mlo bunData off sub tn tt ss
  have htotal := rebuildState_total bunData off sub tn tt ss
  have hoO := rebuildState_oO bunData off sub tn tt ss
  have hao := rebuildState_argsOffset bunData off sub tn tt ss
  omega

set_option maxHeartbeats 1600000 in
/-- C8: for every successfully parsed archive (record size obtained by
`detectModuleStructSize` on the module table), rebuilding with no field
substitution (null replacement or a target name matching no module)
yields a buffer that re-parses successfully with the same record size,
the same entryPointId and flags header values, the same module count,
the same byte contents of every string field of every module in table
order, and the same per-module flag bytes.  The archive's rebuilt size
and the header's id/flags fields are assumed to fit in 32 bits, as they
do for every archive whose header was read by `parseOffsets`. -/
theorem claim_C8 (bunData : Buf) (off : BunOffsets) (sub : Option Buf) (tn : Buf)
    (tt : FieldKind) (ss : Nat)
    (hparse : ss = detectModuleStructSize
      (getStringPointerContent bunData off.modulesPtr).length)
    (hnosub : sub = none ∨ ∀ m ∈ decodeModules bunData off ss,
      getStringPointerContent bunData m.name ≠ tn)
    (htot : (rebuildState bunData off sub tn tt ss).total < 2 ^ 32)
    (hepid : off.entryPointId < 2 ^ 32) (hflags : off.flags < 2 ^ 32) :
    ∃ pb : ParsedBlob,
      parseBunDataBlob (rebuildBunData bunData off sub tn tt ss) = .ok pb ∧
      pb.moduleStructSize = ss ∧
      pb.bunOffsets.entryPointId = off.entryPointId ∧
      pb.bunOffsets.flags = off.flags ∧
      (decodeModules pb.bunData pb.bunOffsets pb.moduleStructSize).length =
        (decodeModules bunData off ss).length ∧
      (∀ i, i < (decodeModules bunData off ss).length →
        (getStringPointerContent pb.bunData
            ((decodeModules pb.bunData pb.bunOffsets pb.moduleStructSize).getD i
              default).name =
          getStringPointerContent bunData
            ((decodeModules bunData off ss).getD i default).name ∧
         getStringPointerContent pb.bunData
            ((decodeModules pb.bunData pb.bunOffsets pb.moduleStructSize).getD i
              default).contents =
          getStringPointerContent bunData
            ((decodeModules bunData off ss).getD i default).contents ∧
         getStringPointerContent pb.bunData
            ((decodeModules pb.bunData pb.bunOffsets pb.moduleStructSize).getD i
              default).sourcemap =
          getStringPointerContent bunData
            ((decodeModules bunData off ss).getD i default).sourcemap ∧
         getStringPointerContent pb.bunData
            ((decodeModules pb.bunData pb.bunOffsets pb.moduleStructSize).getD i
              default).bytecode =
          getStringPointerContent bunData
            ((decodeModules bunData off ss).getD i default).bytecode ∧
         getStringPointerContent pb.bunData
            ((decodeModules pb.bunData pb.bunOffsets pb.moduleStructSize).getD i
              default).moduleInfo =
          getStringPointerContent bunData
            ((decodeModules bunData off ss).getD i default).moduleInfo ∧
         getStringPointerContent pb.bunData
            ((decodeModules pb.bunData pb.bunOffsets pb.moduleStructSize).getD i
              default).bytecodeOriginPath =
          getStringPointerContent bunData
            ((decodeModules bunData off ss).getD i default).bytecodeOriginPath) ∧
        (((decodeModules pb.bunData pb.bunOffsets pb.moduleStructSize).getD i
            default).encoding =
          ((decodeModules bunData off ss).getD i default).encoding ∧
         ((decodeModules pb.bunData pb.bunOffsets pb.moduleStructSize).getD i
            default).loader =
          ((decodeModules bunData off ss).getD i default).loader ∧
         ((decodeModules pb.bunData pb.bunOffsets pb.moduleStructSize).getD i
            default).moduleFormat =
          ((decodeModules bunData off ss).getD i default).moduleFormat ∧
         ((decodeModules pb.bunData pb.bunOffsets pb.moduleStructSize).getD i
            default).side =
          ((decodeModules bunData off ss).getD i default).side)) := by
  have hss : ss = 36 ∨ ss = 52 := by
    rw [hparse]
    exact detect_cases _
  have hsspos : 0 < ss := by rcases hss with h | h <;> omega
  have hspm46 : spmOf ss = 4 ∨ spmOf ss = 6 := by
    unfold spmOf
    split
    · exact Or.inr rfl
    · exact Or.inl rfl
  have hms_len : (rebuildState bunData off sub tn tt ss).metas.length =
      (decodeModules bunData off ss).length := by
    rw [rebuildState_metas, collectMeta_length]
  have hmlo_eq := rebuildState_mlo bunData off sub tn tt ss
  have hao_eq := rebuildState_argsOffset bunData off sub tn tt ss
  have hoO_eq := rebuildState_oO bunData off sub tn tt ss
  have htotal_eq := rebuildState_total bunData off sub tn tt ss
  have hshape : rebuildBunData bunData off sub tn tt ss =
      (rebuiltStrings bunData off sub tn tt ss ++
        (rebuiltTable bunData off sub tn tt ss ++
          ((rebuildState bunData off sub tn tt ss).argsBytes ++ [0]))) ++
      (encodeOffsets (rebuildState bunData off sub tn tt ss).offsetsOffset
        (rebuildState bunData off sub tn tt ss).modulesListOffset
        (rebuildState bunData off sub tn tt ss).modulesListSize
        (rebuildState bunData off sub tn tt ss).entryPointId
        (rebuildState bunData off sub tn tt ss).argsOffset
        (rebuildState bunData off sub tn tt ss).argsBytes.length
        (rebuildState bunData off sub tn tt ss).flags ++ BUN_TRAILER) := by
    rw [rebuild_structure2 bunData off sub tn tt ss hss]
    simp [List.append_assoc]
  have hbo := parseBlob_append
    (rebuiltStrings bunData off sub tn tt ss ++
      (rebuiltTable bunData off sub tn tt ss ++
        ((rebuildState bunData off sub tn tt ss).argsBytes ++ [0])))
    (rebuildState bunData off sub tn tt ss).offsetsOffset
    (rebuildState bunData off sub tn tt ss).modulesListOffset
    (rebuildState bunData off sub tn tt ss).modulesListSize
    (rebuildState bunData off sub tn tt ss).entryPointId
    (rebuildState bunData off sub tn tt ss).argsOffset
    (rebuildState bunData off sub tn tt ss).argsBytes.length
    (rebuildState bunData off sub tn tt ss).flags
  rw [← hshape] at hbo
  rw [rebuildState_epid bunData off sub tn tt ss,
    rebuildState_flags bunData off sub tn tt ss] at hbo
  rw [Nat.mod_eq_of_lt (show (rebuildState bunData off sub tn tt ss).offsetsOffset < 2 ^ 64
      from by omega),
    Nat.mod_eq_of_lt (show (rebuildState bunData off sub tn tt ss).modulesListOffset < 2 ^ 32
      from by omega),
    Nat.mod_eq_of_lt (show (rebuildState bunData off sub tn tt ss).modulesListSize < 2 ^ 32
      from by omega),
    Nat.mod_eq_of_lt hepid,
    Nat.mod_eq_of_lt (show (rebuildState bunData off sub tn tt ss).argsOffset < 2 ^ 32
      from by omega),
    Nat.mod_eq_of_lt (show (rebuildState bunData off sub tn tt ss).argsBytes.length < 2 ^ 32
      from by omega),
    Nat.mod_eq_of_lt hflags] at hbo
  have hdss : detectModuleStructSize (rebuildState bunData off sub tn tt ss).modulesListSize =
      ss := by
    rw [rebuildState_mls, hms_len, decodeModules_length]
    exact detect_stable _ ss hparse.symm
  rw [hdss] at hbo
  refine ⟨_, hbo, rfl, rfl, rfl, ?_, ?_⟩
  · dsimp only
    rw [decodeModules_length]
    dsimp only
    rw [rebuilt_table_slice bunData off sub tn tt ss hss,
      rebuiltTable_length bunData off sub tn tt ss hss, Nat.mul_div_cancel _ hsspos]
    exact hms_len
  · intro i hi
    dsimp only
    have hi' : i < (rebuildState bunData off sub tn tt ss).metas.length := by
      rw [hms_len]
      exact hi
    have hdm2 : (decodeModules (rebuildBunData bunData off sub tn tt ss)
        ⟨(rebuildState bunData off sub tn tt ss).offsetsOffset,
          ⟨(rebuildState bunData off sub tn tt ss).modulesListOffset,
            (rebuildState bunData off sub tn tt ss).modulesListSize⟩,
          off.entryPointId,
          ⟨(rebuildState bunData off sub tn tt ss).argsOffset,
            (rebuildState bunData off sub tn tt ss).argsBytes.length⟩,
          off.flags⟩ ss).getD i default =
        parseCompiledModule (rebuiltTable bunData off sub tn tt ss) (i * ss) ss := by
      unfold decodeModules
      simp only
      rw [rebuilt_table_slice bunData off sub tn tt ss hss]
      rw [getD_map_lt _ _ i (by
        rw [List.length_range, rebuiltTable_length bunData off sub tn tt ss hss,
          Nat.mul_div_cancel _ hsspos]
        exact hi') default 0]
      congr 1
      rw [List.getD_eq_getElem?_getD, List.getElem?_range (by
        rw [rebuiltTable_length bunData off sub tn tt ss hss,
          Nat.mul_div_cancel _ hsspos]
        exact hi')]
      rfl
    have hrr : rebuiltRecord bunData off sub tn tt ss i =
        encodeModuleRecord
          (recordViews ss (rebuildState bunData off sub tn tt ss).stringOffsets i)
          ((rebuildState bunData off sub tn tt ss).metas.getD i default) := rfl
    rw [hdm2, rebuilt_table_record bunData off sub tn tt ss hss i hi', hrr,
      parse_encodeModuleRecord _ _ ss _ hss (recordViews_length (by
        rw [rebuilt_views_len]
        exact Nat.mul_le_mul_right _ (by omega)))]
    have hm1 : (decodeModules bunData off ss).getD i default =
        parseCompiledModule (getStringPointerContent bunData off.modulesPtr) (i * ss) ss := by
      have hi2 : i < (getStringPointerContent bunData off.modulesPtr).length / ss := by
        rw [← decodeModules_length bunData off ss]
        exact hi
      unfold decodeModules
      simp only
      rw [getD_map_lt _ _ i (by rw [List.length_range]; exact hi2) default 0]
      congr 1
      rw [List.getD_eq_getElem?_getD, List.getElem?_range hi2]
      rfl
    have hgbound : ∀ f, f < spmOf ss →
        i * spmOf ss + f < (rebuildState bunData off sub tn tt ss).stringsData.length := by
      intro f hf
      rw [rebuildState_stringsData, stringsData_length]
      have hi2 : i < (collectMeta bunData off sub tn tt ss).length := by
        rw [← rebuildState_metas bunData off sub tn tt ss]
        exact hi'
      have h1 : (i + 1) * spmOf ss ≤
          (collectMeta bunData off sub tn tt ss).length * spmOf ss :=
        Nat.mul_le_mul_right _ (by omega)
      have h2 : (i + 1) * spmOf ss = i * spmOf ss + spmOf ss := by ring
      omega
    have hcontent : ∀ f, f < spmOf ss →
        getStringPointerContent (rebuildBunData bunData off sub tn tt ss)
          ⟨((recordViews ss (rebuildState bunData off sub tn tt ss).stringOffsets i).getD f
              default).offset % 2 ^ 32,
            ((recordViews ss (rebuildState bunData off sub tn tt ss).stringOffsets i).getD f
              default).length % 2 ^ 32⟩ =
        (moduleFields ss ((collectMeta bunData off sub tn tt ss).getD i default)).getD f [] := by
      intro f hf
      have hg := hgbound f hf
      have hb := rebuilt_view_bounds bunData off sub tn tt ss _ hg
      rw [rebuilt_sos_getD bunData off sub tn tt ss i f hi' hf]
      dsimp only
      rw [Nat.mod_eq_of_lt (by omega), Nat.mod_eq_of_lt (by omega),
        rebuilt_content bunData off sub tn tt ss hss _ hg, rebuildState_stringsData,
        flatten_const_getD (spmOf ss) _ i f
          (fun l hl => by
            obtain ⟨mm, hmm, hml⟩ := List.mem_map.mp hl
            rw [← hml]
            exact moduleFields_length ss mm)
          (by
            rw [List.length_map, collectMeta_length]
            exact hi)
          hf [],
        getD_map_lt _ _ i (by rw [collectMeta_length]; exact hi) [] default]
    have hmeta : (collectMeta bunData off sub tn tt ss).getD i default =
        metaOf bunData none tn tt ((decodeModules bunData off ss).getD i default) := by
      rw [collectMeta_nosub bunData off sub tn tt ss hnosub]
      unfold collectMeta
      exact getD_map_lt _ _ i hi default default
    obtain ⟨hmf0, hmf1, hmf2, hmf3, hmf45⟩ :=
      moduleFields_getD6 ss ((collectMeta bunData off sub tn tt ss).getD i default) hss
    obtain ⟨hn0, hn1, hn2, hn3, hn4, hn5, hn6, hn7, hn8, hn9⟩ :=
      metaOf_none_fields bunData tn tt ((decodeModules bunData off ss).getD i default)
    refine ⟨⟨?_, ?_, ?_, ?_, ?_, ?_⟩, ?_, ?_, ?_, ?_⟩
    · dsimp only
      rw [hcontent 0 (by rcases hspm46 with h | h <;> omega), hmf0, hmeta, hn0]
    · dsimp only
      rw [hcontent 1 (by rcases hspm46 with h | h <;> omega), hmf1, hmeta, hn1]
    · dsimp only
      rw [hcontent 2 (by rcases hspm46 with h | h <;> omega), hmf2, hmeta, hn2]
    · dsimp only
      rw [hcontent 3 (by rcases hspm46 with h | h <;> omega), hmf3, hmeta, hn3]
    · dsimp only
      rcases hss with h36 | h52
      · subst h36
        rw [if_neg (show ¬ ((36 : Nat) = 52) from by decide), hm1]
        unfold parseCompiledModule
        rw [if_neg (show ¬ ((36 : Nat) = SIZEOF_MODULE_NEW) from by decide)]
        dsimp only
        unfold getStringPointerContent
        simp [subarr]
      · rw [if_pos h52]
        rw [hcontent 4 (by rw [h52]; decide), (hmf45 h52).1, hmeta, hn4]
    · dsimp only
      rcases hss with h36 | h52
      · subst h36
        rw [if_neg (show ¬ ((36 : Nat) = 52) from by decide), hm1]
        unfold parseCompiledModule
        rw [if_neg (show ¬ ((36 : Nat) = SIZEOF_MODULE_NEW) from by decide)]
        dsimp only
        unfold getStringPointerContent
        simp [subarr]
      · rw [if_pos h52]
        rw [hcontent 5 (by rw [h52]; decide), (hmf45 h52).2, hmeta, hn5]
    · dsimp only
      rw [rebuildState_metas, hmeta]
      exact hn6
    · dsimp only
      rw [rebuildState_metas, hmeta]
      exact hn7
    · dsimp only
      rw [rebuildState_metas, hmeta]
      exact hn8
    · dsimp only
      rw [rebuildState_metas, hmeta]
      exact hn9

/-- Witness for C8 at a concrete one-module new-format archive: a
52-byte zero blob whose module table is the whole blob. -/
theorem claim_C8_witness :
    ((52 : Nat) = detectModuleStructSize
        (getStringPointerContent (List.replicate 52 0) c8off.modulesPtr).length ∧
      (rebuildState (List.replicate 52 0) c8off none [] FieldKind.contents 52).total <
        2 ^ 32 ∧
      c8off.entryPointId < 2 ^ 32 ∧ c8off.flags < 2 ^ 32) ∧
    (∃ pb : ParsedBlob,
      parseBunDataBlob (rebuildBunData (List.replicate 52 0) c8off none []
        FieldKind.contents 52) = .ok pb ∧
      pb.moduleStructSize = 52 ∧
      pb.bunOffsets.entryPointId = c8off.entryPointId ∧
      pb.bunOffsets.flags = c8off.flags ∧
      (decodeModules pb.bunData pb.bunOffsets pb.moduleStructSize).length =
        (decodeModules (List.replicate 52 0) c8off 52).length ∧
      (∀ i, i < (decodeModules (List.replicate 52 0) c8off 52).length →
        (getStringPointerContent pb.bunData
            ((decodeModules pb.bunData pb.bunOffsets pb.moduleStructSize).getD i
              default).name =
          getStringPointerContent (List.replicate 52 0)
            ((decodeModules (List.replicate 52 0) c8off 52).getD i default).name ∧
         getStringPointerContent pb.bunData
            ((decodeModules pb.bunData pb.bunOffsets pb.moduleStructSize).getD i
              default).contents =
          getStringPointerContent (List.replicate 52 0)
            ((decodeModules (List.replicate 52 0) c8off 52).getD i default).contents ∧
         getStringPointerContent pb.bunData
            ((decodeModules pb.bunData pb.bunOffsets pb.moduleStructSize).getD i
              default).sourcemap =
          getStringPointerContent (List.replicate 52 0)
            ((decodeModules (List.replicate 52 0) c8off 52).getD i default).sourcemap ∧
         getStringPointerContent pb.bunData
            ((decodeModules pb.bunData pb.bunOffsets pb.moduleStructSize).getD i
              default).bytecode =
          getStringPointerContent (List.replicate 52 0)
            ((decodeModules (List.replicate 52 0) c8off 52).getD i default).bytecode ∧
         getStringPointerContent pb.bunData
            ((decodeModules pb.bunData pb.bunOffsets pb.moduleStructSize).getD i
              default).moduleInfo =
          getStringPointerContent (List.replicate 52 0)
            ((decodeModules (List.replicate 52 0) c8off 52).getD i default).moduleInfo ∧
         getStringPointerContent pb.bunData
            ((decodeModules pb.bunData pb.bunOffsets pb.moduleStructSize).getD i
              default).bytecodeOriginPath =
          getStringPointerContent (List.replicate 52 0)
            ((decodeModules (List.replicate 52 0) c8off 52).getD i
              default).bytecodeOriginPath) ∧
        (((decodeModules pb.bunData pb.bunOffsets pb.moduleStructSize).getD i
            default).encoding =
          ((decodeModules (List.replicate 52 0) c8off 52).getD i default).encoding ∧
         ((decodeModules pb.bunData pb.bunOffsets pb.moduleStructSize).getD i
            default).loader =
          ((decodeModules (List.replicate 52 0) c8off 52).getD i default).loader ∧
         ((decodeModules pb.bunData pb.bunOffsets pb.moduleStructSize).getD i
            default).moduleFormat =
          ((decodeModules (List.replicate 52 0) c8off 52).getD i default).moduleFormat ∧
         ((decodeModules pb.bunData pb.bunOffsets pb.moduleStructSize).getD i
            default).side =
          ((decodeModules (List.replicate 52 0) c8off 52).getD i default).side))) :=
  ⟨⟨by decide, by decide, by decide, by decide⟩,
    claim_C8 (List.replicate 52 0) c8off none [] FieldKind.contents 52 (by decide)
      (Or.inl rfl) (by decide) (by decide) (by decide)⟩

end Depester
